import Mathlib

/-!
# DigiCard API (`src/api/api.js`)

A shallow embedding of the Express handlers of `src/api/api.js` and of the two
services they talk to: the `cards` collection of the document store and the
hosted language model.

* JavaScript values are the type `Val`; a value that may be `undefined` is an
  `Option Val`.
* The collection is a list of records in insertion order; a request handler is
  a function from the collection before the request to the response and the
  collection after it.  The store is taken to be reachable: the `catch`
  branches of the handlers are entered by the failures the data itself causes
  (a malformed identifier, a duplicate key, a document the driver or the
  server refuses, a value that does not convert to a string), not by a lost
  connection.
* `new Date().toISOString()`, the identifier the driver would generate, the
  hosted model, `JSON.parse` and the checks the driver and the server make on
  a document before they take it are inputs of the handlers that use them.
-/

namespace DigiCard

/-! ## JavaScript values -/

/-- The numbers of the model: the integers JavaScript holds exactly, those
below `2^53` in magnitude.  No handler does arithmetic on a field. -/
abbrev SafeInt := { n : Int // -9007199254740992 < n ∧ n < 9007199254740992 }

/-- A JavaScript value as it occurs in request bodies, stored documents and
response bodies: the JSON values, plus `oid` for a BSON `ObjectId` (given by
its 24-digit lower-case hex form). -/
inductive Val where
  | null
  | bool (b : Bool)
  | num (n : SafeInt)
  | str (s : String)
  | oid (hex : String)
  | arr (items : List Val)
  | obj (fields : List (String × Val))

/-- A JavaScript object: its own enumerable properties, in the order of their
assignment (an object is read by name: no handler observes the order).  The
objects `JSON.parse` delivers have distinct property names; the operations
below are defined on every list and read the first occurrence of a name. -/
abbrev Obj := List (String × Val)

mutual
/-- Decidable equality of values. -/
def Val.decEq : (a b : Val) → Decidable (a = b)
  | .null, .null => isTrue rfl
  | .bool a, .bool b =>
    if h : a = b then isTrue (by rw [h]) else isFalse (by intro e; cases e; exact h rfl)
  | .num a, .num b =>
    if h : a = b then isTrue (by rw [h]) else isFalse (by intro e; cases e; exact h rfl)
  | .str a, .str b =>
    if h : a = b then isTrue (by rw [h]) else isFalse (by intro e; cases e; exact h rfl)
  | .oid a, .oid b =>
    if h : a = b then isTrue (by rw [h]) else isFalse (by intro e; cases e; exact h rfl)
  | .arr a, .arr b =>
    match Val.decEqItems a b with
    | isTrue h => isTrue (by rw [h])
    | isFalse h => isFalse (by intro e; cases e; exact h rfl)
  | .obj a, .obj b =>
    match Val.decEqFields a b with
    | isTrue h => isTrue (by rw [h])
    | isFalse h => isFalse (by intro e; cases e; exact h rfl)
  | .null, .bool _ | .null, .num _ | .null, .str _ | .null, .oid _ | .null, .arr _
  | .null, .obj _ | .bool _, .null | .bool _, .num _ | .bool _, .str _ | .bool _, .oid _
  | .bool _, .arr _ | .bool _, .obj _ | .num _, .null | .num _, .bool _ | .num _, .str _
  | .num _, .oid _ | .num _, .arr _ | .num _, .obj _ | .str _, .null | .str _, .bool _
  | .str _, .num _ | .str _, .oid _ | .str _, .arr _ | .str _, .obj _ | .oid _, .null
  | .oid _, .bool _ | .oid _, .num _ | .oid _, .str _ | .oid _, .arr _ | .oid _, .obj _
  | .arr _, .null | .arr _, .bool _ | .arr _, .num _ | .arr _, .str _ | .arr _, .oid _
  | .arr _, .obj _ | .obj _, .null | .obj _, .bool _ | .obj _, .num _ | .obj _, .str _
  | .obj _, .oid _ | .obj _, .arr _ =>
    isFalse (by intro e; cases e)
termination_by structural a => a
/-- Decidable equality of arrays of values. -/
def Val.decEqItems : (a b : List Val) → Decidable (a = b)
  | [], [] => isTrue rfl
  | [], _ :: _ => isFalse (by intro e; cases e)
  | _ :: _, [] => isFalse (by intro e; cases e)
  | x :: xs, y :: ys =>
    match Val.decEq x y, Val.decEqItems xs ys with
    | isTrue h, isTrue h2 => isTrue (by rw [h, h2])
    | isFalse h, _ => isFalse (by intro e; cases e; exact h rfl)
    | _, isFalse h => isFalse (by intro e; cases e; exact h rfl)
termination_by structural a => a
/-- Decidable equality of property lists. -/
def Val.decEqFields : (a b : List (String × Val)) → Decidable (a = b)
  | [], [] => isTrue rfl
  | [], _ :: _ => isFalse (by intro e; cases e)
  | _ :: _, [] => isFalse (by intro e; cases e)
  | (k, x) :: xs, (k2, y) :: ys =>
    if hk : k = k2 then
      match Val.decEq x y, Val.decEqFields xs ys with
      | isTrue h, isTrue h2 => isTrue (by rw [hk, h, h2])
      | isFalse h, _ => isFalse (by intro e; cases e; exact h rfl)
      | _, isFalse h => isFalse (by intro e; cases e; exact h rfl)
    else isFalse (by intro e; cases e; exact hk rfl)
termination_by structural a => a
end

instance : DecidableEq Val := Val.decEq

/-- JavaScript truthiness (`!v` is its negation): `null`, `false`, `0` and the
empty string are falsy, every other value is truthy. -/
def Val.truthy : Val → Bool
  | .null => false
  | .bool b => b
  | .num n => n.val != 0
  | .str s => s != ""
  | .oid _ => true
  | .arr _ => true
  | .obj _ => true

/-- Truthiness of a value that may be `undefined`. -/
def truthy : Option Val → Bool
  | none => false
  | some v => v.truthy

/-- The message of the `TypeError` a failed string conversion throws (in the
wording of V8). -/
def conversionError : String := "Cannot convert object to primitive value"

/-- One step of `join`: the element as it prints, the separator unless the
element is the last one, and the rest; `none` when a conversion threw. -/
def joinStep (sep : String) (last : Bool) : Option String → Option String → Option String
  | some a, some b => some (a ++ (if last then "" else sep) ++ b)
  | _, _ => none

mutual
/-- JavaScript `String(v)`, the conversion a template literal applies; `none`
when it throws a `TypeError`.  An object converts through the `toString` it
inherits, unless it has an own property `toString`: a JSON value is not
callable, so the conversion throws.  An array converts through `join(",")`. -/
def Val.toStr : Val → Option String
  | .null => some "null"
  | .bool b => some (if b then "true" else "false")
  | .num n => some (toString n.val)
  | .str s => some s
  | .oid h => some h
  | .arr xs => Val.joinWith "," xs
  | .obj fields => if fields.any (fun p => p.1 == "toString") then none else some "[object Object]"
termination_by structural v => v
/-- JavaScript `xs.join(sep)`: `null` and `undefined` elements give the empty
string, every other element its `String(_)`; `none` when one of these
conversions throws. -/
def Val.joinWith (sep : String) : List Val → Option String
  | [] => some ""
  | x :: r =>
    joinStep sep r.isEmpty
      (match x with
        | .null => some ""
        | v => Val.toStr v)
      (Val.joinWith sep r)
termination_by structural l => l
end

/-- A template-literal hole `${e}` for an expression that may be `undefined`;
`none` when the conversion throws. -/
def interpolate : Option Val → Option String
  | none => some "undefined"
  | some v => v.toStr

/-- Property read `v.k` for a name `k` that no prototype defines: the own
property of an object, `undefined` on every other value. -/
def Val.prop (v : Val) (k : String) : Option Val :=
  match v with
  | .obj fields => fields.lookup k
  | _ => none

/-- Property read `o.k` on an object. -/
def Obj.get (k : String) (o : Obj) : Option Val :=
  o.lookup k

/-- The object without its property `k`: what a rest pattern `{ k, ...rest }`
leaves. -/
def Obj.erase (k : String) (o : Obj) : Obj :=
  o.filter (fun p => p.1 != k)

/-- Assignment `o[k] = v`: an existing property keeps its place and takes the
new value, a new one goes to the end. -/
def Obj.set (k : String) (v : Val) : Obj → Obj
  | [] => [(k, v)]
  | (k1, v1) :: r => if k1 = k then (k1, v) :: r else (k1, v1) :: Obj.set k v r

/-- Object spread `{ ...base, ...src }`: the properties of `src` are assigned
onto `base` in order. -/
def Obj.spread (base src : Obj) : Obj :=
  src.foldl (fun acc p => Obj.set p.1 p.2 acc) base

/-! ## HTTP responses -/

/-- What a handler sends: the status code and the JSON body (`none` for the
empty body of `res.send()`). -/
structure Response where
  status : Nat
  body : Option Val
  deriving DecidableEq

/-- The body `{ error: message }` of the failure responses. -/
def errorBody (message : String) : Option Val :=
  some (.obj [("error", .str message)])

/-! ## The `cards` collection -/

/-- A stored document: its `_id` and its other fields. -/
structure Card where
  _id : Val
  fields : Obj
  deriving DecidableEq

/-- The state of the `cards` collection: its documents in insertion order. -/
abbrev Collection := List Card

/-- A hexadecimal digit, in either case. -/
def isHexDigit (c : Char) : Bool :=
  ('0' ≤ c && c ≤ '9') || ('a' ≤ c && c ≤ 'f') || ('A' ≤ c && c ≤ 'F')

/-- The lower-case form of a hexadecimal digit. -/
def lowerHex (c : Char) : Char :=
  if 'A' ≤ c && c ≤ 'F' then Char.ofNat (c.toNat + 32) else c

/-- The driver's `new ObjectId(id)` on a string: a string of 24 hexadecimal
digits denotes an identifier (case is not significant); on any other string the
constructor throws, which is `none` here.  (Releases of the driver before 5.0
also took a string of 12 bytes.) -/
def parseObjectId (id : String) : Option Val :=
  if id.data.length = 24 ∧ id.data.all isHexDigit then
    some (.oid (String.mk (id.data.map lowerHex)))
  else none

/-- The `_id` a document is stored under: the one it carries, or the
identifier `fresh` the driver generates when it carries none (`doc._id ==
null`). -/
def docId (doc : Obj) (fresh : String) : Val :=
  match Obj.get "_id" doc with
  | none => .oid fresh
  | some .null => .oid fresh
  | some v => v

/-- The document as the driver leaves it after `insertOne`: a document that
carried no `_id` has been given the generated one. -/
def withId (doc : Obj) (fresh : String) : Obj :=
  match Obj.get "_id" doc with
  | none => Obj.set "_id" (.oid fresh) doc
  | some .null => Obj.set "_id" (.oid fresh) doc
  | some _ => doc

/-- The store's `insertOne(doc)`.  The document is stored under `docId`.
`accepts` is the check the driver and the server make on the document they
are given (the driver throws on a property name that holds a NUL character,
for one); the store also refuses an array as `_id` and an `_id` another
document already has (the unique index on `_id`).  On success the result is
`insertedId`, the document as the driver left it, and the collection with the
new document at the end. -/
def insertOne (accepts : Obj → Bool) (coll : Collection) (doc : Obj) (fresh : String) :
    Except String (Val × Obj × Collection) :=
  let id := docId doc fresh
  match id with
  | .arr _ => .error "can't use an array for _id"
  | _ =>
    if !accepts (withId doc fresh) then .error "document refused"
    else if coll.any (fun c => decide (c._id = id)) then .error "E11000 duplicate key error"
    else .ok (id, withId doc fresh, coll ++ [{ _id := id, fields := Obj.erase "_id" doc }])

/-- The effect of `{ $set: upd }` on one document: every field of `upd` is
assigned, every other field is kept.  Field names are plain top-level names
(dotted paths into embedded documents are outside the model). -/
def applySet (upd : Obj) (c : Card) : Card :=
  { c with fields := Obj.spread c.fields upd }

/-- The collection after `{ $set: upd }` on the first document whose `_id` is
`id`. -/
def setFirst (id : Val) (upd : Obj) : Collection → Collection
  | [] => []
  | c :: r => if c._id = id then applySet upd c :: r else c :: setFirst id upd r

/-- The store's `updateOne({ _id: id }, { $set: upd })`: `matchedCount` and the
collection afterwards.  `accepts` is the check the driver and the server make
on the operand of `$set` before any document is looked up (the driver throws
on a property name that holds a NUL character, for one).  An update that would
change `_id` is refused. -/
def updateOne (accepts : Obj → Bool) (coll : Collection) (id : Val) (upd : Obj) :
    Except String (Nat × Collection) :=
  if !accepts upd then .error "update refused"
  else if coll.any (fun c => decide (c._id = id)) then
    match Obj.get "_id" upd with
    | none => .ok (1, setFirst id upd coll)
    | some v =>
      if v = id then .ok (1, setFirst id (Obj.erase "_id" upd) coll)
      else .error "Performing an update on the path '_id' would modify the immutable field '_id'"
  else .ok (0, coll)

/-- The store's `deleteOne({ _id: id })`: `deletedCount` and the collection
without the first document whose `_id` is `id`. -/
def deleteOne (coll : Collection) (id : Val) : Nat × Collection :=
  if coll.any (fun c => decide (c._id = id)) then
    (1, coll.eraseP (fun c => decide (c._id = id)))
  else (0, coll)

/-! ### Sort order of `find().sort({ tanggalDibuat: -1 })` -/

/-- The bracket of a value in the BSON comparison order: null (and a missing
field) < numbers < strings < embedded documents < arrays < ObjectId <
booleans. -/
def bsonBracket : Val → Nat
  | .null => 5
  | .num _ => 10
  | .str _ => 15
  | .obj _ => 20
  | .arr _ => 25
  | .oid _ => 35
  | .bool _ => 40

/-- Binary comparison of two strings: lexicographic on the code points. -/
def lexLe : List Char → List Char → Bool
  | [], _ => true
  | _ :: _, [] => false
  | a :: as, b :: bs => decide (a < b) || (decide (a = b) && lexLe as bs)

/-- The BSON comparison `a ≤ b`: by bracket first; inside a bracket numbers
compare by value, strings and identifiers byte-wise, `false < true`.  Two
embedded documents, or two arrays, are not ordered any further here. -/
def bsonLe (a b : Val) : Bool :=
  match a, b with
  | .num x, .num y => decide (x.val ≤ y.val)
  | .str x, .str y => lexLe x.data y.data
  | .oid x, .oid y => lexLe x.data y.data
  | .bool x, .bool y => !x || y
  | _, _ => decide (bsonBracket a ≤ bsonBracket b)

/-- The largest element of a non-empty array. -/
def maxElem (x : Val) (xs : List Val) : Val :=
  xs.foldl (fun m y => if bsonLe m y then y else m) x

/-- The key a document has in a descending sort on `tanggalDibuat`: the value
of the field, `null` when the field is missing, the largest element when the
value is an array; `none` is the key of an empty array, which sorts below
`null`. -/
def sortKey (c : Card) : Option Val :=
  match Obj.get "tanggalDibuat" c.fields with
  | none => some .null
  | some (.arr []) => none
  | some (.arr (x :: xs)) => some (maxElem x xs)
  | some v => some v

/-- Comparison of sort keys. -/
def keyLe : Option Val → Option Val → Bool
  | none, _ => true
  | some _, none => false
  | some a, some b => bsonLe a b

/-- The record `a` may stand before `b` in the listing: its key is not below
the key of `b`. -/
def newerFirst (a b : Card) : Prop :=
  keyLe (sortKey b) (sortKey a) = true

instance : DecidableRel newerFirst := fun a b =>
  inferInstanceAs (Decidable (keyLe (sortKey b) (sortKey a) = true))

/-- The documents as `find().sort({ tanggalDibuat: -1 }).toArray()` returns
them. -/
def findSorted (coll : Collection) : List Card :=
  coll.insertionSort newerFirst

/-! ## CRUD endpoints -/

/-- The view `({ _id, ...rest }) => ({ id: _id, ...rest })` of a document. -/
def cardView (c : Card) : Obj :=
  Obj.spread [("id", c._id)] c.fields

/-- Handler of `GET /api/cards`. -/
def getCards (coll : Collection) : Response :=
  { status := 200
    body := some (.obj [("cards", .arr ((findSorted coll).map (fun c => .obj (cardView c))))]) }

/-- Handler of `POST /api/cards`, on the request body; `now` is
`new Date().toISOString()` at the time of the call, `fresh` the identifier
the driver generates for a document without `_id` and `accepts` the check of
`insertOne` on the document.  The result is the response and the collection
after the request. -/
def postCards (accepts : Obj → Bool) (coll : Collection) (now fresh : String) (body : Obj) :
    Response × Collection :=
  let rest := Obj.erase "perusahaan" (Obj.erase "nama" body)
  match Obj.get "nama" body, Obj.get "perusahaan" body with
  | some nama, some perusahaan =>
    if !nama.truthy || !perusahaan.truthy then
      ({ status := 400, body := errorBody "Nama dan perusahaan tidak boleh kosong." }, coll)
    else
      let newCardData :=
        Obj.set "tanggalDibuat" (.str now)
          (Obj.spread [("nama", nama), ("perusahaan", perusahaan)] rest)
      match insertOne accepts coll newCardData fresh with
      | .ok (insertedId, stored, coll1) =>
        ({ status := 201, body := some (.obj (Obj.spread [("id", insertedId)] stored)) }, coll1)
      | .error _ =>
        ({ status := 500, body := errorBody "Gagal menyimpan data ke database." }, coll)
  | _, _ => ({ status := 400, body := errorBody "Nama dan perusahaan tidak boleh kosong." }, coll)

/-- Handler of `PUT /api/cards/:id`, on the path parameter and the request
body; `accepts` is the check of `updateOne` on the operand of `$set`. -/
def putCard (accepts : Obj → Bool) (coll : Collection) (id : String) (body : Obj) :
    Response × Collection :=
  let updatedData := Obj.erase "_id" body
  match parseObjectId id with
  | none => ({ status := 500, body := errorBody "Gagal memperbarui data di database." }, coll)
  | some oid =>
    match updateOne accepts coll oid updatedData with
    | .ok (matchedCount, coll1) =>
      if matchedCount = 0 then
        ({ status := 404, body := errorBody "Kartu tidak ditemukan." }, coll1)
      else
        ({ status := 200, body := some (.obj (Obj.spread [("id", .str id)] updatedData)) }, coll1)
    | .error _ =>
      ({ status := 500, body := errorBody "Gagal memperbarui data di database." }, coll)

/-- Handler of `DELETE /api/cards/:id`, on the path parameter. -/
def deleteCard (coll : Collection) (id : String) : Response × Collection :=
  match parseObjectId id with
  | none => ({ status := 500, body := errorBody "Gagal menghapus data dari database." }, coll)
  | some oid =>
    match deleteOne coll oid with
    | (deletedCount, coll1) =>
      if deletedCount = 0 then
        ({ status := 404, body := errorBody "Kartu tidak ditemukan." }, coll1)
      else ({ status := 204, body := none }, coll1)

/-! ## Inference client -/

/-- One call `replicate.run(model, { input })`. -/
structure ReplicateCall where
  model : String
  input : Obj
  deriving DecidableEq

/-- How a call of the hosted model ends: it raises, or it returns an output
(`none` is `undefined`). -/
inductive RunOutcome where
  | throws (message : String)
  | returns (output : Option Val)
  deriving DecidableEq

deriving instance DecidableEq for Except

/-- The hosted model: how it reacts to a call. -/
abbrev Remote := ReplicateCall → RunOutcome

/-- The call `callReplicateApi` makes for a prompt. -/
def replicateCall (prompt : String) : ReplicateCall :=
  { model := "ibm-granite/granite-3.3-8b-instruct"
    input := [("prompt", .str prompt), ("max_new_tokens", .num ⟨256, by decide⟩)] }

/-- The helper `callReplicateApi(prompt)`; `token` is
`process.env.REPLICATE_API_TOKEN`.  The result is what the helper returns
(`.error message` when it throws) and the calls it sent to the hosted model.
The `join` of line 41 is inside the `try`: when it throws, the helper throws
the error of line 44. -/
def callReplicateApi (token : Option String) (remote : Remote) (prompt : String) :
    Except String (Option Val) × List ReplicateCall :=
  match token with
  | none => (.error "Replicate API Token belum diatur di .env", [])
  | some t =>
    if t = "" then (.error "Replicate API Token belum diatur di .env", [])
    else
      match remote (replicateCall prompt) with
      | .throws _ => (.error "Gagal mendapatkan respons dari AI.", [replicateCall prompt])
      | .returns (some (.arr chunks)) =>
        match Val.joinWith "" chunks with
        | some joined => (.ok (some (.str joined)), [replicateCall prompt])
        | none => (.error "Gagal mendapatkan respons dari AI.", [replicateCall prompt])
      | .returns output => (.ok output, [replicateCall prompt])

/-! ## Extraction endpoint -/

/-- Three backticks. -/
def fence : List Char := "\x60\x60\x60".data

/-- The opening fence with its tag. -/
def fenceJson : List Char := "\x60\x60\x60json".data

/-- Length of the match of the pattern of line 63, an opening fence tagged
`json` with an optional newline after it, or a fence with an optional newline
before it, at the start of `s`; `0` when the pattern does not match there. -/
def fenceMatch (s : List Char) : Nat :=
  if (fenceJson ++ ['\n']).isPrefixOf s then 8
  else if fenceJson.isPrefixOf s then 7
  else if ('\n' :: fence).isPrefixOf s then 4
  else if fence.isPrefixOf s then 3
  else 0

/-- The scan of `replace(pattern, '')` with the global flag: `skip` characters
of a match are still to be dropped; outside a match, a match that starts here
is dropped and any other character is kept. -/
def stripFrom : Nat → List Char → List Char
  | _, [] => []
  | skip + 1, _ :: r => stripFrom skip r
  | 0, c :: r =>
    match fenceMatch (c :: r) with
    | 0 => c :: stripFrom 0 r
    | m + 1 => stripFrom m r

/-- The white space and line terminators `String.prototype.trim` removes. -/
def isJsSpace (c : Char) : Bool :=
  let n := c.toNat
  n = 9 || n = 10 || n = 11 || n = 12 || n = 13 || n = 32 || n = 0xA0 || n = 0x1680 ||
    (0x2000 ≤ n && n ≤ 0x200A) || n = 0x2028 || n = 0x2029 || n = 0x202F || n = 0x205F ||
    n = 0x3000 || n = 0xFEFF

/-- JavaScript `s.trim()`. -/
def jsTrim (s : String) : String :=
  String.mk ((s.data.dropWhile isJsSpace).reverse.dropWhile isJsSpace).reverse

/-- The clean-up of line 63: every match of the fence pattern is removed, then
the text is trimmed. -/
def cleanJsonString (jsonString : String) : String :=
  jsTrim (String.mk (stripFrom 0 jsonString.data))

/-- The instruction of the extraction prompt, up to the caller's text. -/
def extractionInstruction : String :=
  "Anda adalah ahli pemilah kartu nama. Ekstrak nama, jabatan, perusahaan, nomor telepon, dan email dari teks berikut. Balas HANYA dengan objek JSON yang valid dengan kunci: \"nama\", \"jabatan\", \"perusahaan\", \"nomorTelepon\", \"email\". Jika sebuah field tidak ditemukan, gunakan string kosong. Teks: \n\n"

/-- Handler of `POST /api/process-text`.  `parse` is `JSON.parse`, with the
message of the error it throws on a text that is not JSON.  The result is the
response and the calls sent to the hosted model.  When the helper returns
something that is not a string, `jsonString.replace` throws a `TypeError`; its
message is given in the wording of V8.  The template literal of line 61 is
inside the `try`: when the conversion of `text` throws, no call is sent. -/
def processText (token : Option String) (remote : Remote) (parse : String → Except String Val)
    (body : Obj) : Response × List ReplicateCall :=
  match Obj.get "text" body with
  | none => ({ status := 400, body := errorBody "Teks tidak boleh kosong." }, [])
  | some text =>
    if !text.truthy then ({ status := 400, body := errorBody "Teks tidak boleh kosong." }, [])
    else
      match text.toStr with
      | none => ({ status := 500, body := errorBody conversionError }, [])
      | some shown =>
        match callReplicateApi token remote (extractionInstruction ++ shown) with
        | (.error message, sent) => ({ status := 500, body := errorBody message }, sent)
        | (.ok (some (.str jsonString)), sent) =>
          match parse (cleanJsonString jsonString) with
          | .ok parsedData =>
            ({ status := 200, body := some (.obj [("data", parsedData)]) }, sent)
          | .error message => ({ status := 500, body := errorBody message }, sent)
        | (.ok none, sent) =>
          ({ status := 500
             body := errorBody "Cannot read properties of undefined (reading 'replace')" }, sent)
        | (.ok (some .null), sent) =>
          ({ status := 500
             body := errorBody "Cannot read properties of null (reading 'replace')" }, sent)
        | (.ok (some _), sent) =>
          ({ status := 500, body := errorBody "jsonString.replace is not a function" }, sent)

/-! ## Email-draft endpoint -/

/-- The text of the email prompt around its holes: the name, the job title
and the company as they print. -/
def emailPromptText (nama jabatan perusahaan : String) : String :=
  "Anda adalah seorang profesional yang hendak mengirim email follow-up. Tujuan Anda adalah untuk memperkuat koneksi dan membuka peluang di masa depan.\n" ++
  "            **Tugas:**\n" ++
  "            Tulis draf email yang akan dikirim ke " ++
  nama ++
  ", yang menjabat sebagai " ++
  jabatan ++
  " di " ++
  perusahaan ++
  ".\n" ++
  "\n" ++
  "            **Konteks (Asumsikan):**\n" ++
  "            - Anda baru saja bertemu dengan mereka di sebuah acara (misalnya seminar, pameran, atau pertemuan bisnis).\n" ++
  "            - Percakapan Anda berjalan dengan baik dan Anda ingin melanjutkan hubungan profesional.\n" ++
  "\n" ++
  "            **Instruksi Email:**\n" ++
  "            1.  **Subjek Email:** Buat subjek yang singkat, personal, dan jelas, contohnya: \"Senang Bertemu di [Nama Acara]\" atau \"Melanjutkan Percakapan Kita\".\n" ++
  "            2.  **Paragraf Pembuka:** Sapa " ++
  nama ++
  " secara personal dan sebutkan kembali di mana dan kapan Anda bertemu untuk menyegarkan ingatan mereka.\n" ++
  "            3.  **Paragraf Isi:**\n" ++
  "                -   Sebutkan secara spesifik satu hal menarik dari percakapan Anda dengan mereka. Ini menunjukkan bahwa Anda benar-benar mendengarkan. (Contoh: \"Saya sangat tertarik dengan pandangan Anda mengenai...\")\n" ++
  "                -   Sampaikan tujuan Anda dengan jelas: ingin tetap terhubung untuk menjajaki potensi kolaborasi atau sekadar memperluas jaringan profesional.\n" ++
  "            4.  **Paragraf Penutup (Ajakan Bertindak):**\n" ++
  "                -   Usulkan langkah selanjutnya yang konkret namun tidak memaksa. Contoh: \"Mungkin kita bisa melanjutkan diskusi ini sambil minum kopi lain waktu?\" atau \"Saya akan senang jika kita bisa terhubung di LinkedIn.\"\n" ++
  "                -   Tutup dengan salam profesional seperti \"Hormat saya,\" atau \"Terima kasih,\".\n" ++
  "\n" ++
  "            **Batasan:**\n" ++
  "            -   Gaya bahasa: Profesional, tulus, dan tidak bertele-tele.\n" ++
  "            -   Panjang: Jaga agar email tetap singkat, idealnya di bawah 120 kata."

/-- The prompt of the email draft for a card (lines 79-99); `none` when the
conversion of a hole of the template literal throws. -/
def emailPrompt (card : Val) : Option String :=
  match interpolate (card.prop "nama"),
    interpolate
      (if truthy (card.prop "jabatan") then card.prop "jabatan"
       else some (.str "seorang profesional")),
    interpolate (card.prop "perusahaan") with
  | some nama, some jabatan, some perusahaan => some (emailPromptText nama jabatan perusahaan)
  | _, _, _ => none

/-- Handler of `POST /api/generate-email`.  The result is the response and the
calls sent to the hosted model; a property whose value is `undefined` is left
out of the JSON body.  The template literal is inside the `try`: when the
conversion of a hole throws, no call is sent. -/
def generateEmail (token : Option String) (remote : Remote) (body : Obj) :
    Response × List ReplicateCall :=
  match Obj.get "card" body with
  | none => ({ status := 400, body := errorBody "Data kartu tidak boleh kosong." }, [])
  | some card =>
    if !card.truthy then
      ({ status := 400, body := errorBody "Data kartu tidak boleh kosong." }, [])
    else
      match emailPrompt card with
      | none => ({ status := 500, body := errorBody conversionError }, [])
      | some prompt =>
        match callReplicateApi token remote prompt with
        | (.error message, sent) => ({ status := 500, body := errorBody message }, sent)
        | (.ok (some emailText), sent) =>
          ({ status := 200, body := some (.obj [("email", emailText)]) }, sent)
        | (.ok none, sent) => ({ status := 200, body := some (.obj []) }, sent)

/-! ## A check of the driver -/

mutual
/-- No property name inside the value holds a NUL character. -/
def Val.namesNulFree : Val → Bool
  | .arr items => Val.itemsNulFree items
  | .obj fields => Val.fieldsNulFree fields
  | _ => true
termination_by structural v => v
/-- No property name inside the elements holds a NUL character. -/
def Val.itemsNulFree : List Val → Bool
  | [] => true
  | x :: r => Val.namesNulFree x && Val.itemsNulFree r
termination_by structural l => l
/-- No property name of the object, at any depth, holds a NUL character. -/
def Val.fieldsNulFree : List (String × Val) → Bool
  | [] => true
  | (k, v) :: r => !k.data.contains (Char.ofNat 0) && Val.namesNulFree v && Val.fieldsNulFree r
termination_by structural l => l
end

/-- One check the driver makes when it serialises a document: a property name
that holds a NUL character is refused.  It serves as the `accepts` of the
evaluations below, whose documents pass every check. -/
def nulFreeNames (doc : Obj) : Bool :=
  Val.fieldsNulFree doc

/-! ## Vocabulary of the statements -/

/-- A required field is missing or empty: the property is absent from the
body, or it is the empty string. -/
def missingOrEmpty (v : Option Val) : Prop :=
  v = none ∨ v = some (.str "")

instance (v : Option Val) : Decidable (missingOrEmpty v) :=
  inferInstanceAs (Decidable (v = none ∨ v = some (.str "")))

/-- The path identifier `id` matches the record `c`: the filter
`{ _id: new ObjectId(id) }` selects it. -/
def matchesId (id : String) (c : Card) : Prop :=
  parseObjectId id = some c._id

instance (id : String) (c : Card) : Decidable (matchesId id c) :=
  inferInstanceAs (Decidable (parseObjectId id = some c._id))

/-- A plain field name: no dot and no leading dollar sign, which `$set` reads
as a path or an operator. -/
def plainName (k : String) : Bool :=
  !k.data.contains '.' && k.data.head? != some '$'

/-- Property `k` of the JSON body of a response. -/
def Response.field (r : Response) (k : String) : Option Val :=
  match r.body with
  | some v => v.prop k
  | none => none

/-! ## Creation: `POST /api/cards` -/

/-- C1. A creation whose body lacks `nama` or `perusahaan`, or has the empty
string there, is answered with status 400 and inserts nothing: the collection
after the request is the collection before it. -/
theorem postCards_missing_required (accepts : Obj → Bool) (coll : Collection)
    (now fresh : String) (body : Obj)
    (h : missingOrEmpty (Obj.get "nama" body) ∨ missingOrEmpty (Obj.get "perusahaan" body)) :
    (postCards accepts coll now fresh body).1.status = 400 ∧
      (postCards accepts coll now fresh body).1.body =
        errorBody "Nama dan perusahaan tidak boleh kosong." ∧
      (postCards accepts coll now fresh body).2 = coll := by
  unfold postCards
  rcases h with (h | h) | (h | h) <;> rw [h]
  · simp
  · cases hp : Obj.get "perusahaan" body <;> simp [Val.truthy]
  · cases hn : Obj.get "nama" body <;> simp
  · cases hn : Obj.get "nama" body <;> simp [Val.truthy]

/-- C1, at a body without `perusahaan` and at a collection of one record. -/
theorem postCards_missing_required_witness :
    (missingOrEmpty (Obj.get "nama" [("nama", .str "Ani")]) ∨
        missingOrEmpty (Obj.get "perusahaan" [("nama", .str "Ani")])) ∧
      (postCards nulFreeNames [⟨.oid "65a000000000000000000001", [("nama", .str "Budi")]⟩]
          "2024-05-01T08:00:00.000Z" "65a000000000000000000002" [("nama", .str "Ani")]).2 =
        [⟨.oid "65a000000000000000000001", [("nama", .str "Budi")]⟩] :=
  ⟨Or.inr (Or.inl rfl),
    (postCards_missing_required nulFreeNames
      [⟨.oid "65a000000000000000000001", [("nama", .str "Budi")]⟩]
      "2024-05-01T08:00:00.000Z" "65a000000000000000000002" [("nama", .str "Ani")]
      (Or.inr (Or.inl rfl))).2.2⟩

/-- C3. At the body `{ nama: "Ani", perusahaan: "Maju", id: "x" }` and an empty
collection the creation succeeds with status 201 and the store assigns the
generated identifier to the inserted record, but the `id` of the response card
is the caller's `"x"`: the spread of the stored data overwrites
`id: result.insertedId`.  After a first creation that carried `_id: "x"`
(stored under the caller's value, not a generated one), the `id` of the second
response equals the identifier of a record already in the collection. -/
theorem postCards_caller_id_shadows_inserted :
    (postCards nulFreeNames [] "2024-05-01T08:00:00.000Z" "65a000000000000000000001"
        [("nama", .str "Ani"), ("perusahaan", .str "Maju"), ("id", .str "x")]).1.status = 201 ∧
    (postCards nulFreeNames [] "2024-05-01T08:00:00.000Z" "65a000000000000000000001"
        [("nama", .str "Ani"), ("perusahaan", .str "Maju"), ("id", .str "x")]).1.field "id" =
      some (.str "x") ∧
    ((postCards nulFreeNames [] "2024-05-01T08:00:00.000Z" "65a000000000000000000001"
        [("nama", .str "Ani"), ("perusahaan", .str "Maju"), ("id", .str "x")]).2.map
          (fun c => c._id)) = [.oid "65a000000000000000000001"] ∧
    ((postCards nulFreeNames [] "2024-05-01T08:00:00.000Z" "65a000000000000000000001"
        [("nama", .str "Ani"), ("perusahaan", .str "Maju"), ("_id", .str "x")]).2.map
          (fun c => c._id)) = [.str "x"] ∧
    (postCards nulFreeNames
        (postCards nulFreeNames [] "2024-05-01T08:00:00.000Z" "65a000000000000000000001"
          [("nama", .str "Ani"), ("perusahaan", .str "Maju"), ("_id", .str "x")]).2
        "2024-05-01T09:00:00.000Z" "65a000000000000000000002"
        [("nama", .str "Budi"), ("perusahaan", .str "Jaya"), ("id", .str "x")]).1 =
      ⟨201, some (.obj [("id", .str "x"), ("nama", .str "Budi"), ("perusahaan", .str "Jaya"),
        ("tanggalDibuat", .str "2024-05-01T09:00:00.000Z"),
        ("_id", .oid "65a000000000000000000002")])⟩ := by
  decide

/-! ## Update and removal: `PUT` and `DELETE /api/cards/:id` -/

theorem any_id_eq_false {coll : Collection} {o : Val} (h : ∀ c ∈ coll, c._id ≠ o) :
    coll.any (fun c => decide (c._id = o)) = false := by
  rw [List.any_eq_false]
  intro c hc
  simpa using h c hc

theorem any_id_eq_true {coll : Collection} {o : Val} {c : Card} (hc : c ∈ coll)
    (h : c._id = o) : coll.any (fun c => decide (c._id = o)) = true := by
  rw [List.any_eq_true]
  exact ⟨c, hc, by simpa using h⟩

theorem unmatched_ids {coll : Collection} {id : String} {o : Val}
    (hp : parseObjectId id = some o) (h : ∀ c ∈ coll, ¬ matchesId id c) :
    ∀ c ∈ coll, c._id ≠ o := by
  intro c hc e
  apply h c hc
  unfold matchesId
  rw [hp, e]

/-- C4, as the code has it. For a path identifier that matches no record the
collection after `PUT /api/cards/:id` is the collection before it, whatever the
body; the response is 404 when the identifier is the text of an `ObjectId`
(24 hexadecimal digits) and the driver and the store take the update, and 500
when the identifier is not such a text or the update is refused. -/
theorem putCard_unmatched (accepts : Obj → Bool) (coll : Collection) (id : String) (body : Obj)
    (h : ∀ c ∈ coll, ¬ matchesId id c) :
    (putCard accepts coll id body).2 = coll ∧
      ((parseObjectId id).isSome → accepts (Obj.erase "_id" body) = true →
        (putCard accepts coll id body).1 = ⟨404, errorBody "Kartu tidak ditemukan."⟩) ∧
      (parseObjectId id = none ∨ accepts (Obj.erase "_id" body) = false →
        (putCard accepts coll id body).1 =
          ⟨500, errorBody "Gagal memperbarui data di database."⟩) := by
  unfold putCard
  cases hp : parseObjectId id with
  | none => simp
  | some o =>
    have hany := any_id_eq_false (unmatched_ids hp h)
    cases ha : accepts (Obj.erase "_id" body) <;> simp [updateOne, hany, ha]

/-- C4 at a well-formed identifier that no record of the collection has. -/
theorem putCard_unmatched_witness :
    (∀ c ∈ [(⟨.oid "65a000000000000000000001", [("nama", .str "Ani")]⟩ : Card)],
        ¬ matchesId "65a000000000000000000002" c) ∧
      putCard nulFreeNames [⟨.oid "65a000000000000000000001", [("nama", .str "Ani")]⟩]
          "65a000000000000000000002" [("nama", .str "Budi")] =
        (⟨404, errorBody "Kartu tidak ditemukan."⟩,
          [⟨.oid "65a000000000000000000001", [("nama", .str "Ani")]⟩]) :=
  ⟨by decide,
    Prod.ext
      ((putCard_unmatched nulFreeNames
        [⟨.oid "65a000000000000000000001", [("nama", .str "Ani")]⟩]
        "65a000000000000000000002" [("nama", .str "Budi")] (by decide)).2.1 rfl rfl)
      (putCard_unmatched nulFreeNames
        [⟨.oid "65a000000000000000000001", [("nama", .str "Ani")]⟩]
        "65a000000000000000000002" [("nama", .str "Budi")] (by decide)).1⟩

/-- C4 as stated fails: the path identifier `abc` matches no record, and the
response is 500, not 404; so it is at a well-formed identifier that matches no
record when the body has a property name with a NUL character, which the
driver refuses. -/
theorem putCard_malformed_id_not_404 :
    (∀ c ∈ [(⟨.oid "65a000000000000000000001", [("nama", .str "Ani")]⟩ : Card)],
        ¬ matchesId "abc" c) ∧
      (putCard nulFreeNames [⟨.oid "65a000000000000000000001", [("nama", .str "Ani")]⟩] "abc"
          [("nama", .str "Budi")]).1 =
        ⟨500, errorBody "Gagal memperbarui data di database."⟩ ∧
      (∀ c ∈ [(⟨.oid "65a000000000000000000001", [("nama", .str "Ani")]⟩ : Card)],
        ¬ matchesId "65a000000000000000000002" c) ∧
      (putCard nulFreeNames [⟨.oid "65a000000000000000000001", [("nama", .str "Ani")]⟩]
          "65a000000000000000000002" [("a\x00", .num ⟨1, by decide⟩)]).1 =
        ⟨500, errorBody "Gagal memperbarui data di database."⟩ := by
  decide

/-- C5. At a collection of one record, the path identifier of that record and
the body `{ id: "zzz", jabatan: "CTO" }` the update succeeds with status 200
and the stored `_id` is the original one, but the `id` of the response is
`"zzz"`, not the path identifier, and the listing afterwards shows the record
with `id: "zzz"`: only `_id` is taken out of the body, `id` is merged into the
record and into the response. -/
theorem putCard_body_id_shadows_path_id :
    (putCard nulFreeNames
        [⟨.oid "65a000000000000000000001", [("nama", .str "Ani"), ("perusahaan", .str "Maju")]⟩]
        "65a000000000000000000001" [("id", .str "zzz"), ("jabatan", .str "CTO")]) =
      (⟨200, some (.obj [("id", .str "zzz"), ("jabatan", .str "CTO")])⟩,
        [⟨.oid "65a000000000000000000001",
          [("nama", .str "Ani"), ("perusahaan", .str "Maju"), ("id", .str "zzz"),
            ("jabatan", .str "CTO")]⟩]) ∧
    getCards
        [⟨.oid "65a000000000000000000001",
          [("nama", .str "Ani"), ("perusahaan", .str "Maju"), ("id", .str "zzz"),
            ("jabatan", .str "CTO")]⟩] =
      ⟨200, some (.obj [("cards", .arr [.obj [("id", .str "zzz"), ("nama", .str "Ani"),
        ("perusahaan", .str "Maju"), ("jabatan", .str "CTO")]])])⟩ := by
  decide

theorem eraseP_id_eq_erase {coll : Collection} {c : Card}
    (hids : (coll.map (fun d => d._id)).Nodup) (hc : c ∈ coll) :
    coll.eraseP (fun d => decide (d._id = c._id)) = coll.erase c := by
  induction coll with
  | nil => cases hc
  | cons d r ih =>
    rw [List.map_cons, List.nodup_cons] at hids
    by_cases hdc : d = c
    · subst hdc
      simp
    · have hcr : c ∈ r := by
        rcases List.mem_cons.mp hc with e | e
        · exact absurd e.symm hdc
        · exact e
      have hid : d._id ≠ c._id := by
        intro e
        apply hids.1
        rw [e]
        exact List.mem_map_of_mem (fun d => d._id) hcr
      have hne : (d == c) = false := by simpa using hdc
      rw [List.eraseP_cons, List.erase_cons, hne, ih hids.2 hcr]
      simp [hid]

theorem nodup_of_nodup_ids {coll : Collection} (hids : (coll.map (fun d => d._id)).Nodup) :
    coll.Nodup :=
  List.Nodup.of_map _ hids

theorem mem_findSorted {coll : Collection} {d : Card} : d ∈ findSorted coll ↔ d ∈ coll :=
  List.mem_insertionSort newerFirst

/-- C6, as the code has it.  In a collection whose records have distinct
identifiers: when the path identifier matches a record, `DELETE /api/cards/:id`
answers 204 with an empty body and the collection afterwards is the collection
without exactly that record, the others as they were and in their order, and
no record listed afterwards has its identifier; when it matches no record the
collection is unchanged, and the response is 404 when the identifier is the
text of an `ObjectId` (24 hexadecimal digits) and 500 when it is not. -/
theorem deleteCard_effect (coll : Collection) (id : String)
    (hids : (coll.map (fun d => d._id)).Nodup) :
    (∀ c ∈ coll, matchesId id c →
      deleteCard coll id = (⟨204, none⟩, coll.erase c) ∧
      (∀ d, d ∈ (deleteCard coll id).2 ↔ d ∈ coll ∧ d ≠ c) ∧
      (deleteCard coll id).2.length + 1 = coll.length ∧
      (∀ d ∈ findSorted (deleteCard coll id).2, d._id ≠ c._id)) ∧
    ((∀ c ∈ coll, ¬ matchesId id c) →
      (deleteCard coll id).2 = coll ∧
      ((parseObjectId id).isSome →
        (deleteCard coll id).1 = ⟨404, errorBody "Kartu tidak ditemukan."⟩) ∧
      (parseObjectId id = none →
        (deleteCard coll id).1 = ⟨500, errorBody "Gagal menghapus data dari database."⟩)) := by
  constructor
  · intro c hc hm
    unfold matchesId at hm
    have hnd := nodup_of_nodup_ids hids
    have hdel : deleteCard coll id = (⟨204, none⟩, coll.erase c) := by
      unfold deleteCard deleteOne
      rw [hm]
      simp only [any_id_eq_true hc rfl, if_true]
      rw [eraseP_id_eq_erase hids hc]
      simp
    have hmem : ∀ d, d ∈ coll.erase c ↔ d ∈ coll ∧ d ≠ c := by
      intro d
      rw [hnd.mem_erase_iff]
      exact and_comm
    refine ⟨hdel, ?_, ?_, ?_⟩
    · rw [hdel]
      exact hmem
    · rw [hdel]
      simp only
      rw [List.length_erase_of_mem hc]
      have : 0 < coll.length := List.length_pos_of_mem hc
      omega
    · rw [hdel]
      intro d hd e
      rw [mem_findSorted] at hd
      have hd2 := (hmem d).mp hd
      exact hd2.2 (List.inj_on_of_nodup_map hids hd2.1 hc e)
  · intro h
    unfold deleteCard
    cases hp : parseObjectId id with
    | none => simp
    | some o =>
      have hany := any_id_eq_false (unmatched_ids hp h)
      simp [deleteOne, hany]

/-- C6 at a collection of two records and the identifier of the first. -/
theorem deleteCard_effect_witness :
    ([(⟨.oid "65a000000000000000000001", [("nama", .str "Ani")]⟩ : Card),
        ⟨.oid "65a000000000000000000002", [("nama", .str "Budi")]⟩].map
          (fun d => d._id)).Nodup ∧
      deleteCard
          [⟨.oid "65a000000000000000000001", [("nama", .str "Ani")]⟩,
            ⟨.oid "65a000000000000000000002", [("nama", .str "Budi")]⟩]
          "65A000000000000000000001" =
        (⟨204, none⟩,
          [(⟨.oid "65a000000000000000000001", [("nama", .str "Ani")]⟩ : Card),
            ⟨.oid "65a000000000000000000002", [("nama", .str "Budi")]⟩].erase
              ⟨.oid "65a000000000000000000001", [("nama", .str "Ani")]⟩) :=
  ⟨by decide,
    ((deleteCard_effect
      [⟨.oid "65a000000000000000000001", [("nama", .str "Ani")]⟩,
        ⟨.oid "65a000000000000000000002", [("nama", .str "Budi")]⟩]
      "65A000000000000000000001" (by decide)).1
      ⟨.oid "65a000000000000000000001", [("nama", .str "Ani")]⟩ (by decide) (by decide)).1⟩

/-- C6 as stated fails: the path identifier `abc` matches no record, and the
response is 500, not 404. -/
theorem deleteCard_malformed_id_not_404 :
    (∀ c ∈ [(⟨.oid "65a000000000000000000001", [("nama", .str "Ani")]⟩ : Card)],
        ¬ matchesId "abc" c) ∧
      deleteCard [⟨.oid "65a000000000000000000001", [("nama", .str "Ani")]⟩] "abc" =
        (⟨500, errorBody "Gagal menghapus data dari database."⟩,
          [⟨.oid "65a000000000000000000001", [("nama", .str "Ani")]⟩]) := by
  decide

/-! ## Listing: `GET /api/cards` -/

theorem lexLe_total (a b : List Char) : lexLe a b = true ∨ lexLe b a = true := by
  induction a generalizing b with
  | nil => left; simp [lexLe]
  | cons x xs ih =>
    cases b with
    | nil => right; simp [lexLe]
    | cons y ys =>
      simp only [lexLe, Bool.or_eq_true, Bool.and_eq_true, decide_eq_true_eq]
      rcases lt_trichotomy x y with h | h | h
      · exact Or.inl (Or.inl h)
      · subst h
        rcases ih ys with h2 | h2
        · exact Or.inl (Or.inr ⟨rfl, h2⟩)
        · exact Or.inr (Or.inr ⟨rfl, h2⟩)
      · exact Or.inr (Or.inl h)

theorem lexLe_trans {a b c : List Char} (hab : lexLe a b = true) (hbc : lexLe b c = true) :
    lexLe a c = true := by
  induction a generalizing b c with
  | nil => simp [lexLe]
  | cons x xs ih =>
    cases b with
    | nil => simp [lexLe] at hab
    | cons y ys =>
      cases c with
      | nil => simp [lexLe] at hbc
      | cons z zs =>
        simp only [lexLe, Bool.or_eq_true, Bool.and_eq_true, decide_eq_true_eq] at hab hbc ⊢
        rcases hab with h1 | ⟨h1, h1r⟩
        · rcases hbc with h2 | ⟨h2, _⟩
          · exact Or.inl (lt_trans h1 h2)
          · exact Or.inl (h2 ▸ h1)
        · rcases hbc with h2 | ⟨h2, h2r⟩
          · exact Or.inl (h1 ▸ h2)
          · exact Or.inr ⟨h1.trans h2, ih h1r h2r⟩

theorem lexLe_eq_false_of_lt {a b : List Char} (h : a < b) : lexLe b a = false := by
  induction h with
  | nil => simp [lexLe]
  | rel hlt =>
    simp only [lexLe, Bool.or_eq_false_iff, Bool.and_eq_false_imp, decide_eq_false_iff_not,
      decide_eq_true_eq]
    exact ⟨lt_asymm hlt, fun e => absurd hlt (e ▸ lt_irrefl _)⟩
  | cons _ ih =>
    simp only [lexLe, Bool.or_eq_false_iff, Bool.and_eq_false_imp, decide_eq_false_iff_not,
      decide_eq_true_eq]
    exact ⟨lt_irrefl _, fun _ => ih⟩

theorem bsonLe_total (a b : Val) : bsonLe a b = true ∨ bsonLe b a = true := by
  cases a <;> cases b <;> simp [bsonLe, bsonBracket]
  · rename_i x y
    cases x <;> cases y <;> simp
  · exact le_total _ _
  · exact lexLe_total _ _
  · exact lexLe_total _ _

theorem bsonLe_trans {a b c : Val} (hab : bsonLe a b = true) (hbc : bsonLe b c = true) :
    bsonLe a c = true := by
  cases a <;> cases b <;> cases c <;> simp [bsonLe, bsonBracket] at hab hbc ⊢
  · rename_i x y z
    cases x <;> cases y <;> cases z <;> simp_all
  · exact le_trans hab hbc
  · exact lexLe_trans hab hbc
  · exact lexLe_trans hab hbc

theorem keyLe_total (a b : Option Val) : keyLe a b = true ∨ keyLe b a = true := by
  cases a <;> cases b <;> simp [keyLe]
  exact bsonLe_total _ _

theorem keyLe_trans {a b c : Option Val} (hab : keyLe a b = true) (hbc : keyLe b c = true) :
    keyLe a c = true := by
  cases a <;> cases b <;> cases c <;> simp [keyLe] at hab hbc ⊢
  exact bsonLe_trans hab hbc

instance : IsTotal Card newerFirst :=
  ⟨fun a b => (keyLe_total (sortKey a) (sortKey b)).symm⟩

instance : IsTrans Card newerFirst :=
  ⟨fun _ _ _ hab hbc => keyLe_trans hbc hab⟩

theorem findSorted_sorted (coll : Collection) : (findSorted coll).Pairwise newerFirst :=
  List.sorted_insertionSort newerFirst coll

theorem findSorted_perm (coll : Collection) : (findSorted coll).Perm coll :=
  List.perm_insertionSort newerFirst coll

theorem pair_sublist_of_sorted {l : List Card} (hs : l.Pairwise newerFirst) {a b : Card}
    (ha : a ∈ l) (hb : b ∈ l) (hne : ¬ newerFirst a b) : List.Sublist [b, a] l := by
  induction l with
  | nil => cases ha
  | cons x r ih =>
    rw [List.pairwise_cons] at hs
    rcases List.mem_cons.mp ha with hax | har
    · subst hax
      rcases List.mem_cons.mp hb with hbx | hbr
      · subst hbx
        exact absurd ((keyLe_total (sortKey b) (sortKey b)).elim id id) hne
      · exact absurd (hs.1 b hbr) hne
    · rcases List.mem_cons.mp hb with hbx | hbr
      · subst hbx
        exact List.Sublist.cons₂ b (List.singleton_sublist.mpr har)
      · exact List.Sublist.cons x (ih hs.2 har hbr)

theorem get_set_self (k : String) (v : Val) (o : Obj) : Obj.get k (Obj.set k v o) = some v := by
  induction o with
  | nil => simp [Obj.set, Obj.get, List.lookup]
  | cons p r ih =>
    obtain ⟨k1, v1⟩ := p
    unfold Obj.set
    by_cases h : k1 = k
    · subst h
      simp [Obj.get, List.lookup]
    · have hne : (k == k1) = false := by simpa using fun e => h e.symm
      simp only [h, if_false, Obj.get, List.lookup, hne]
      exact ih

theorem get_erase_of_ne {k k2 : String} (h : k ≠ k2) (o : Obj) :
    Obj.get k (Obj.erase k2 o) = Obj.get k o := by
  induction o with
  | nil => rfl
  | cons p r ih =>
    obtain ⟨k1, v1⟩ := p
    unfold Obj.erase Obj.get at *
    by_cases h1 : k1 = k2
    · subst h1
      have hne : (k == k1) = false := by simpa using h
      simp only [List.filter_cons, bne_self_eq_false, List.lookup, hne]
      exact ih
    · have hb : (k1 != k2) = true := by simpa using h1
      simp only [List.filter_cons, hb, if_true, List.lookup]
      cases k == k1
      · exact ih
      · rfl

theorem insertOne_ok {accepts : Obj → Bool} {coll : Collection} {doc : Obj} {fresh : String}
    {id : Val} {stored : Obj} {coll1 : Collection}
    (h : insertOne accepts coll doc fresh = .ok (id, stored, coll1)) :
    id = docId doc fresh ∧ stored = withId doc fresh ∧
      coll1 = coll ++ [⟨id, Obj.erase "_id" doc⟩] ∧ ∀ d ∈ coll, d._id ≠ id := by
  unfold insertOne at h
  simp only at h
  split at h
  · cases h
  · split at h
    · cases h
    · split at h
      · cases h
      · rename_i hany
        simp only [Except.ok.injEq, Prod.mk.injEq] at h
        obtain ⟨h1, h2, h3⟩ := h
        refine ⟨h1.symm, h2.symm, ?_, ?_⟩
        · rw [← h3, h1]
        · intro d hd e
          apply hany
          rw [List.any_eq_true]
          exact ⟨d, hd, by simpa [h1] using e⟩


theorem get_set_of_ne {k k2 : String} (h : k ≠ k2) (v : Val) (o : Obj) :
    Obj.get k (Obj.set k2 v o) = Obj.get k o := by
  induction o with
  | nil =>
    have hne : (k == k2) = false := by simpa using h
    simp [Obj.set, Obj.get, List.lookup, hne]
  | cons p r ih =>
    obtain ⟨k1, v1⟩ := p
    unfold Obj.set
    by_cases h1 : k1 = k2
    · subst h1
      have hne : (k == k1) = false := by simpa using h
      simp [Obj.get, List.lookup, hne]
    · simp only [h1, if_false, Obj.get, List.lookup] at ih ⊢
      cases k == k1
      · exact ih
      · rfl

theorem names_set (k : String) (v : Val) (o : Obj) :
    (Obj.set k v o).map Prod.fst = if k ∈ o.map Prod.fst then o.map Prod.fst
      else o.map Prod.fst ++ [k] := by
  induction o with
  | nil => simp [Obj.set]
  | cons p r ih =>
    obtain ⟨k1, v1⟩ := p
    unfold Obj.set
    by_cases h1 : k1 = k
    · subst h1
      simp
    · have h2 : ¬ k = k1 := fun e => h1 e.symm
      simp only [h1, if_false, List.map_cons, ih, List.mem_cons, h2, false_or]
      split <;> simp

theorem names_set_nodup (k : String) (v : Val) {o : Obj} (h : (o.map Prod.fst).Nodup) :
    ((Obj.set k v o).map Prod.fst).Nodup := by
  rw [names_set]
  split
  · exact h
  · rename_i hk
    exact List.Nodup.append h (List.nodup_singleton k)
      (by
        intro x hx hx2
        rw [List.mem_singleton] at hx2
        exact hk (hx2 ▸ hx))

theorem names_spread_nodup {base : Obj} (src : Obj) (h : (base.map Prod.fst).Nodup) :
    ((Obj.spread base src).map Prod.fst).Nodup := by
  induction src generalizing base with
  | nil => exact h
  | cons p r ih => exact ih (names_set_nodup p.1 p.2 h)

theorem names_erase_nodup (k : String) {o : Obj} (h : (o.map Prod.fst).Nodup) :
    ((Obj.erase k o).map Prod.fst).Nodup :=
  h.sublist ((List.filter_sublist o).map Prod.fst)

theorem get_spread {k : String} (base : Obj) {src : Obj} (h : (src.map Prod.fst).Nodup) :
    Obj.get k (Obj.spread base src) =
      match Obj.get k src with
      | some v => some v
      | none => Obj.get k base := by
  induction src generalizing base with
  | nil => rfl
  | cons p r ih =>
    obtain ⟨k1, v1⟩ := p
    rw [List.map_cons, List.nodup_cons] at h
    show Obj.get k (Obj.spread (Obj.set k1 v1 base) r) = _
    rw [ih _ h.2]
    by_cases hk : k = k1
    · subst hk
      have hnone : Obj.get k r = none := by
        unfold Obj.get
        rw [List.lookup_eq_none_iff]
        intro q hq
        by_contra hkq
        apply h.1
        have hkq2 : k = q.1 := by simpa using hkq
        have hm := List.mem_map_of_mem Prod.fst hq
        rw [← hkq2] at hm
        exact hm
      rw [hnone, get_set_self]
      simp [Obj.get, List.lookup]
    · have hne : (k == k1) = false := by simpa using hk
      rw [get_set_of_ne hk]
      simp [Obj.get, List.lookup, hne]

theorem cardView_get (c : Card) (k : String) (h : (c.fields.map Prod.fst).Nodup) :
    Obj.get k (cardView c) =
      match Obj.get k c.fields with
      | some v => some v
      | none => if k = "id" then some c._id else none := by
  unfold cardView
  rw [get_spread _ h]
  cases Obj.get k c.fields with
  | some v => rfl
  | none =>
    by_cases hk : k = "id"
    · subst hk
      rfl
    · have hne : (k == "id") = false := by simpa using hk
      simp [Obj.get, List.lookup, hne, hk]

theorem postCards_created {accepts : Obj → Bool} {coll : Collection} {now fresh : String}
    {body : Obj} (hs : (postCards accepts coll now fresh body).1.status = 201) :
    ∃ c, (postCards accepts coll now fresh body).2 = coll ++ [c] ∧
      Obj.get "tanggalDibuat" c.fields = some (.str now) ∧ (∀ d ∈ coll, d._id ≠ c._id) ∧
      (c.fields.map Prod.fst).Nodup := by
  unfold postCards at hs ⊢
  cases hn : Obj.get "nama" body with
  | none => simp [hn] at hs
  | some nama =>
    cases hp : Obj.get "perusahaan" body with
    | none => simp [hn, hp] at hs
    | some perusahaan =>
      simp only [hn, hp] at hs ⊢
      split at hs
      · simp at hs
      · rename_i htr
        simp only [htr, if_false] at hs ⊢
        generalize hins : insertOne accepts coll _ fresh = res at hs ⊢
        match res, hins with
        | .error _, _ => simp at hs
        | .ok (id, stored, coll1), hins =>
          obtain ⟨_, _, h3, h4⟩ := insertOne_ok hins
          refine ⟨_, h3, ?_, h4, ?_⟩
          · simp only
            rw [get_erase_of_ne (by decide), get_set_self]
          · simp only
            apply names_erase_nodup
            apply names_set_nodup
            apply names_spread_nodup
            simp

/-- C7, as the code has it.  The listing of `GET /api/cards` holds every stored
record exactly once (it is a permutation of the collection), ordered by the
stored `tanggalDibuat` descending, and shows of each record its fields and,
under `id`, its identifier (in a record that has a field `id` of its own, that
field).  A successful creation stores its timestamp under `tanggalDibuat`,
whatever fields the body carried.  Of two records that carry timestamps as
`tanggalDibuat`, the one with the later timestamp is listed before the other:
so a record created later is listed first as long as both carry their creation
timestamps. -/
theorem getCards_newest_first :
    (∀ coll : Collection,
      (findSorted coll).Perm coll ∧ (findSorted coll).Pairwise newerFirst ∧
      getCards coll =
        ⟨200, some (.obj [("cards", .arr ((findSorted coll).map (fun c => .obj (cardView c))))])⟩) ∧
    (∀ (c : Card) (k : String), (c.fields.map Prod.fst).Nodup →
      Obj.get k (cardView c) =
        match Obj.get k c.fields with
        | some v => some v
        | none => if k = "id" then some c._id else none) ∧
    (∀ (accepts : Obj → Bool) (coll : Collection) (now fresh : String) (body : Obj),
      (postCards accepts coll now fresh body).1.status = 201 →
      ∃ c, (postCards accepts coll now fresh body).2 = coll ++ [c] ∧
        Obj.get "tanggalDibuat" c.fields = some (.str now)) ∧
    (∀ (coll : Collection) (c1 c2 : Card) (t1 t2 : String), c1 ∈ coll → c2 ∈ coll →
      Obj.get "tanggalDibuat" c1.fields = some (.str t1) →
      Obj.get "tanggalDibuat" c2.fields = some (.str t2) →
      t1 < t2 →
      List.Sublist [c2, c1] (findSorted coll)) := by
  refine ⟨fun coll => ⟨findSorted_perm coll, findSorted_sorted coll, rfl⟩, cardView_get, ?_, ?_⟩
  · intro accepts coll now fresh body hs
    obtain ⟨c, hc, hk, _⟩ := postCards_created hs
    exact ⟨c, hc, hk⟩
  · intro coll c1 c2 t1 t2 hm1 hm2 hk1 hk2 hlt
    apply pair_sublist_of_sorted (findSorted_sorted coll) (mem_findSorted.mpr hm1)
      (mem_findSorted.mpr hm2)
    unfold newerFirst sortKey
    rw [hk1, hk2]
    simp only [keyLe, bsonLe]
    have hfalse : lexLe t2.data t1.data = false :=
      lexLe_eq_false_of_lt (String.lt_iff_toList_lt.mp hlt)
    rw [hfalse]
    simp

/-- C7 at the collection two creations one hour apart leave, the second with a
body that carried its own `tanggalDibuat`. -/
theorem getCards_newest_first_witness :
    postCards nulFreeNames
        [⟨.oid "65a000000000000000000001", [("nama", .str "Ani"), ("perusahaan", .str "Maju"),
          ("tanggalDibuat", .str "2024-05-01T08:00:00.000Z")]⟩]
        "2024-05-01T09:00:00.000Z" "65a000000000000000000002"
        [("nama", .str "Budi"), ("perusahaan", .str "Jaya"),
          ("tanggalDibuat", .str "1999-01-01T00:00:00.000Z")] =
      (⟨201, some (.obj [("id", .oid "65a000000000000000000002"), ("nama", .str "Budi"),
          ("perusahaan", .str "Jaya"), ("tanggalDibuat", .str "2024-05-01T09:00:00.000Z"),
          ("_id", .oid "65a000000000000000000002")])⟩,
        [⟨.oid "65a000000000000000000001", [("nama", .str "Ani"), ("perusahaan", .str "Maju"),
          ("tanggalDibuat", .str "2024-05-01T08:00:00.000Z")]⟩,
         ⟨.oid "65a000000000000000000002", [("nama", .str "Budi"), ("perusahaan", .str "Jaya"),
          ("tanggalDibuat", .str "2024-05-01T09:00:00.000Z")]⟩]) ∧
    "2024-05-01T08:00:00.000Z" < "2024-05-01T09:00:00.000Z" ∧
    List.Sublist
      [(⟨.oid "65a000000000000000000002", [("nama", .str "Budi"), ("perusahaan", .str "Jaya"),
          ("tanggalDibuat", .str "2024-05-01T09:00:00.000Z")]⟩ : Card),
        ⟨.oid "65a000000000000000000001", [("nama", .str "Ani"), ("perusahaan", .str "Maju"),
          ("tanggalDibuat", .str "2024-05-01T08:00:00.000Z")]⟩]
      (findSorted
        [⟨.oid "65a000000000000000000001", [("nama", .str "Ani"), ("perusahaan", .str "Maju"),
          ("tanggalDibuat", .str "2024-05-01T08:00:00.000Z")]⟩,
         ⟨.oid "65a000000000000000000002", [("nama", .str "Budi"), ("perusahaan", .str "Jaya"),
          ("tanggalDibuat", .str "2024-05-01T09:00:00.000Z")]⟩]) :=
  ⟨by decide, String.lt_iff_toList_lt.mpr (by decide),
    getCards_newest_first.2.2.2 _ _ _ "2024-05-01T08:00:00.000Z" "2024-05-01T09:00:00.000Z"
      (by decide) (by decide) rfl rfl (String.lt_iff_toList_lt.mpr (by decide))⟩

/-- C7 as stated fails: after the creations of the witness, an update of the
first record with the body `{ tanggalDibuat: "2030-01-01T00:00:00.000Z" }` is
answered 200, and the listing then returns the first record before the second,
which was created later: the listing is ordered by the stored field, which an
update replaces. -/
theorem getCards_after_update_of_tanggalDibuat :
    postCards nulFreeNames [] "2024-05-01T08:00:00.000Z" "65a000000000000000000001"
        [("nama", .str "Ani"), ("perusahaan", .str "Maju")] =
      (⟨201, some (.obj [("id", .oid "65a000000000000000000001"), ("nama", .str "Ani"),
          ("perusahaan", .str "Maju"), ("tanggalDibuat", .str "2024-05-01T08:00:00.000Z"),
          ("_id", .oid "65a000000000000000000001")])⟩,
        [⟨.oid "65a000000000000000000001", [("nama", .str "Ani"), ("perusahaan", .str "Maju"),
          ("tanggalDibuat", .str "2024-05-01T08:00:00.000Z")]⟩]) ∧
    postCards nulFreeNames
        [⟨.oid "65a000000000000000000001", [("nama", .str "Ani"), ("perusahaan", .str "Maju"),
          ("tanggalDibuat", .str "2024-05-01T08:00:00.000Z")]⟩]
        "2024-05-01T09:00:00.000Z" "65a000000000000000000002"
        [("nama", .str "Budi"), ("perusahaan", .str "Jaya")] =
      (⟨201, some (.obj [("id", .oid "65a000000000000000000002"), ("nama", .str "Budi"),
          ("perusahaan", .str "Jaya"), ("tanggalDibuat", .str "2024-05-01T09:00:00.000Z"),
          ("_id", .oid "65a000000000000000000002")])⟩,
        [⟨.oid "65a000000000000000000001", [("nama", .str "Ani"), ("perusahaan", .str "Maju"),
          ("tanggalDibuat", .str "2024-05-01T08:00:00.000Z")]⟩,
         ⟨.oid "65a000000000000000000002", [("nama", .str "Budi"), ("perusahaan", .str "Jaya"),
          ("tanggalDibuat", .str "2024-05-01T09:00:00.000Z")]⟩]) ∧
    putCard nulFreeNames
        [⟨.oid "65a000000000000000000001", [("nama", .str "Ani"), ("perusahaan", .str "Maju"),
          ("tanggalDibuat", .str "2024-05-01T08:00:00.000Z")]⟩,
         ⟨.oid "65a000000000000000000002", [("nama", .str "Budi"), ("perusahaan", .str "Jaya"),
          ("tanggalDibuat", .str "2024-05-01T09:00:00.000Z")]⟩]
        "65a000000000000000000001" [("tanggalDibuat", .str "2030-01-01T00:00:00.000Z")] =
      (⟨200, some (.obj [("id", .str "65a000000000000000000001"),
          ("tanggalDibuat", .str "2030-01-01T00:00:00.000Z")])⟩,
        [⟨.oid "65a000000000000000000001", [("nama", .str "Ani"), ("perusahaan", .str "Maju"),
          ("tanggalDibuat", .str "2030-01-01T00:00:00.000Z")]⟩,
         ⟨.oid "65a000000000000000000002", [("nama", .str "Budi"), ("perusahaan", .str "Jaya"),
          ("tanggalDibuat", .str "2024-05-01T09:00:00.000Z")]⟩]) ∧
    getCards
        [⟨.oid "65a000000000000000000001", [("nama", .str "Ani"), ("perusahaan", .str "Maju"),
          ("tanggalDibuat", .str "2030-01-01T00:00:00.000Z")]⟩,
         ⟨.oid "65a000000000000000000002", [("nama", .str "Budi"), ("perusahaan", .str "Jaya"),
          ("tanggalDibuat", .str "2024-05-01T09:00:00.000Z")]⟩] =
      ⟨200, some (.obj [("cards", .arr [
        .obj [("id", .oid "65a000000000000000000001"), ("nama", .str "Ani"),
          ("perusahaan", .str "Maju"), ("tanggalDibuat", .str "2030-01-01T00:00:00.000Z")],
        .obj [("id", .oid "65a000000000000000000002"), ("nama", .str "Budi"),
          ("perusahaan", .str "Jaya"), ("tanggalDibuat", .str "2024-05-01T09:00:00.000Z")]])])⟩ := by
  decide

/-! ## Extraction: `POST /api/process-text` -/

theorem fence_eq : fence = [Char.ofNat 96, Char.ofNat 96, Char.ofNat 96] := by decide

theorem fenceJson_eq : fenceJson = fence ++ ['j', 's', 'o', 'n'] := by decide

theorem fence_prefix_of_append {x y : List Char}
    (h : fence.isPrefixOf (x ++ '\n' :: y) = true) : fence.isPrefixOf x = true := by
  rw [fence_eq] at h ⊢
  match x with
  | [] => simp [List.isPrefixOf] at h
  | [a] => simp [List.isPrefixOf] at h
  | [a, b] => simp [List.isPrefixOf] at h
  | a :: b :: c :: r => simpa [List.isPrefixOf] using h

theorem fenceMatch_eq_zero {s : List Char} (h1 : fence.isPrefixOf s = false)
    (h2 : ('\n' :: fence).isPrefixOf s = false) : fenceMatch s = 0 := by
  have h3 : fenceJson.isPrefixOf s = false := by
    rw [Bool.eq_false_iff] at h1 ⊢
    intro h
    apply h1
    rw [List.isPrefixOf_iff_prefix] at h ⊢
    rw [fenceJson_eq] at h
    exact (List.prefix_append _ _).trans h
  have h4 : (fenceJson ++ ['\n']).isPrefixOf s = false := by
    rw [Bool.eq_false_iff] at h3 ⊢
    intro h
    apply h3
    rw [List.isPrefixOf_iff_prefix] at h ⊢
    exact (List.prefix_append _ _).trans h
  unfold fenceMatch
  simp [h1, h2, h3, h4]

theorem stripFrom_body (j : List Char) (h : ¬ List.IsInfix fence j) :
    stripFrom 0 (j ++ '\n' :: fence) = j := by
  induction j with
  | nil => decide
  | cons c r ih =>
    have hr : ¬ List.IsInfix fence r := fun hi => h (hi.trans (List.suffix_cons c r).isInfix)
    have h1 : fence.isPrefixOf (c :: r ++ '\n' :: fence) = false := by
      rw [Bool.eq_false_iff]
      intro hp
      have := fence_prefix_of_append hp
      rw [List.isPrefixOf_iff_prefix] at this
      exact h this.isInfix
    have h2 : ('\n' :: fence).isPrefixOf (c :: r ++ '\n' :: fence) = false := by
      rw [Bool.eq_false_iff]
      intro hp
      rw [List.cons_append, List.isPrefixOf_cons₂, Bool.and_eq_true] at hp
      have := fence_prefix_of_append hp.2
      rw [List.isPrefixOf_iff_prefix] at this
      exact hr this.isInfix
    have hm := fenceMatch_eq_zero h1 h2
    rw [List.cons_append] at hm ⊢
    rw [stripFrom, hm]
    simp only
    rw [ih hr]

theorem stripFrom_opening (rest : List Char) :
    stripFrom 0 (fenceJson ++ '\n' :: rest) = stripFrom 0 rest := by
  rw [fenceJson_eq, fence_eq]
  simp [stripFrom, fenceMatch, fenceJson_eq, fence_eq, List.isPrefixOf]

/-- C2, as the code has it.  For every text `j` that holds no run of three
backticks, the clean-up applied to `j` between an opening fence tagged `json`
and a closing fence yields exactly `j` with its surrounding white space
removed; so when the model returns the fenced text and `JSON.parse` accepts
the trimmed `j`, extraction answers 200 with the value `JSON.parse` gives for
it. -/
theorem cleanJsonString_fenced (j : String) (h : ¬ List.IsInfix fence j.data) :
    cleanJsonString ("```json\n" ++ j ++ "\n```") = jsTrim j ∧
    ∀ (token : Option String) (remote : Remote) (parse : String → Except String Val)
      (body : Obj) (text parsedData : Val) (shown : String),
      Obj.get "text" body = some text → text.truthy = true → text.toStr = some shown →
      (callReplicateApi token remote (extractionInstruction ++ shown)).1 =
        .ok (some (.str ("```json\n" ++ j ++ "\n```"))) →
      parse (jsTrim j) = .ok parsedData →
      (processText token remote parse body).1 = ⟨200, some (.obj [("data", parsedData)])⟩ := by
  have hclean : cleanJsonString ("```json\n" ++ j ++ "\n```") = jsTrim j := by
    unfold cleanJsonString
    have hd : ("```json\n" ++ j ++ "\n```").data = fenceJson ++ '\n' :: (j.data ++ '\n' :: fence) := by
      rw [String.data_append, String.data_append]
      have e1 : "```json\n".data = fenceJson ++ ['\n'] := by decide
      have e2 : "\n```".data = '\n' :: fence := by decide
      rw [e1, e2]
      simp
    rw [hd, stripFrom_opening, stripFrom_body j.data h]
  refine ⟨hclean, ?_⟩
  intro token remote parse body text parsedData shown hget htruthy hshown hcall hparse
  unfold processText
  rw [hget]
  simp only [htruthy, Bool.not_true, Bool.false_eq_true, if_false, hshown]
  generalize callReplicateApi token remote (extractionInstruction ++ shown) = res at hcall ⊢
  obtain ⟨r, sent⟩ := res
  simp only at hcall
  subst hcall
  simp only [hclean, hparse]

/-- C2 at the fenced text of the example in the specification. -/
theorem cleanJsonString_fenced_witness :
    ¬ List.IsInfix fence "\x7b\"name\":\"A\"\x7d".data ∧
      cleanJsonString ("```json\n" ++ "\x7b\"name\":\"A\"\x7d" ++ "\n```") = jsTrim "\x7b\"name\":\"A\"\x7d" :=
  ⟨by decide, (cleanJsonString_fenced "\x7b\"name\":\"A\"\x7d" (by decide)).1⟩

/-- C2 as stated fails: `j` is the text of a JSON object whose only value is a
string of three backticks; the clean-up removes them along with the fences, so
the cleaned text denotes the object with the empty string there. -/
theorem cleanJsonString_strips_inner_fence :
    cleanJsonString ("```json\n" ++ "\x7b\"name\":\"```\"\x7d" ++ "\n```") = "\x7b\"name\":\"\"\x7d" ∧
      jsTrim "\x7b\"name\":\"```\"\x7d" = "\x7b\"name\":\"```\"\x7d" ∧
      cleanJsonString ("```json\n" ++ "\x7b\"name\":\"```\"\x7d" ++ "\n```") ≠
        jsTrim "\x7b\"name\":\"```\"\x7d" := by
  decide

/-! ## Inference client -/

theorem foldl_append_eq (acc : String) (l : List String) :
    l.foldl (fun r s => r ++ s) acc = acc ++ l.foldl (fun r s => r ++ s) "" := by
  induction l generalizing acc with
  | nil => simp
  | cons x xs ih =>
    simp only [List.foldl_cons]
    rw [ih (acc ++ x), ih ("" ++ x)]
    simp [String.append_assoc]

theorem joinWith_empty_strs (chunks : List String) :
    Val.joinWith "" (chunks.map Val.str) = some (String.join chunks) := by
  induction chunks with
  | nil => rfl
  | cons x xs ih =>
    have hstep : Val.joinWith "" ((x :: xs).map Val.str) =
        some (x ++ "" ++ String.join xs) := by
      have hunfold : Val.joinWith "" ((x :: xs).map Val.str) =
          joinStep "" (xs.map Val.str).isEmpty (some x) (Val.joinWith "" (xs.map Val.str)) := rfl
      rw [hunfold, ih]
      simp [joinStep]
    rw [hstep]
    unfold String.join
    rw [List.foldl_cons, foldl_append_eq ("" ++ x)]
    simp

/-- C8, as the code has it.  With a credential configured, `callReplicateApi`
fails with an error if and only if the remote call raises or returns a
sequence whose `join` throws (it holds an element that does not convert to a
string); when the remote call returns a sequence of text chunks it returns
their concatenation in order, and when the remote call returns no output it
returns that absent output, without an error. -/
theorem callReplicateApi_outcome (token : String) (htok : token ≠ "") (remote : Remote)
    (prompt : String) :
    ((∃ message, (callReplicateApi (some token) remote prompt).1 = .error message) ↔
      (∃ m, remote (replicateCall prompt) = .throws m) ∨
      ∃ chunks, remote (replicateCall prompt) = .returns (some (.arr chunks)) ∧
        Val.joinWith "" chunks = none) ∧
    (∀ chunks : List String,
      remote (replicateCall prompt) = .returns (some (.arr (chunks.map Val.str))) →
      (callReplicateApi (some token) remote prompt).1 = .ok (some (.str (String.join chunks)))) ∧
    (remote (replicateCall prompt) = .returns none →
      (callReplicateApi (some token) remote prompt).1 = .ok none) := by
  unfold callReplicateApi
  simp only [htok, if_false]
  refine ⟨?_, ?_, ?_⟩
  · constructor
    · rintro ⟨message, hm⟩
      split at hm
      · rename_i m hr
        exact Or.inl ⟨m, hr⟩
      · rename_i chunks hr
        split at hm
        · cases hm
        · rename_i hj
          exact Or.inr ⟨chunks, hr, hj⟩
      · cases hm
    · rintro (⟨m, hr⟩ | ⟨chunks, hr, hj⟩)
      · rw [hr]
        exact ⟨_, rfl⟩
      · rw [hr]
        simp only [hj]
        exact ⟨_, rfl⟩
  · intro chunks hr
    rw [hr]
    simp only [joinWith_empty_strs]
  · intro hr
    rw [hr]

/-- C8 at a remote call that returns the chunks `"Ha"`, `"lo"`. -/
theorem callReplicateApi_outcome_witness :
    "r8_token" ≠ "" ∧
      (callReplicateApi (some "r8_token")
          (fun _ => .returns (some (.arr ([ "Ha", "lo" ].map Val.str)))) "Halo").1 =
        .ok (some (.str (String.join ["Ha", "lo"]))) :=
  ⟨by decide,
    (callReplicateApi_outcome "r8_token" (by decide)
      (fun _ => .returns (some (.arr ([ "Ha", "lo" ].map Val.str)))) "Halo").2.1 ["Ha", "lo"] rfl⟩

/-- C8 as stated fails: with a credential configured and a remote call that
returns no output, `callReplicateApi` returns `undefined` and does not fail;
and it fails, though the remote call neither raised nor came back without an
output, when the sequence returned holds an object with an own property
`toString`. -/
theorem callReplicateApi_no_output_no_error :
    callReplicateApi (some "r8_token") (fun _ => .returns none) "Halo" =
      (.ok none, [replicateCall "Halo"]) ∧
    callReplicateApi (some "r8_token")
        (fun _ => .returns (some (.arr [.obj [("toString", .num ⟨1, by decide⟩)]]))) "Halo" =
      (.error "Gagal mendapatkan respons dari AI.", [replicateCall "Halo"]) := by
  decide

theorem callReplicateApi_sent (token : Option String) (remote : Remote) (prompt : String) :
    (callReplicateApi token remote prompt).2 = [] ∨
      (callReplicateApi token remote prompt).2 = [replicateCall prompt] := by
  unfold callReplicateApi
  split
  · exact Or.inl rfl
  · split
    · exact Or.inl rfl
    · split
      · exact Or.inr rfl
      · split <;> exact Or.inr rfl
      · exact Or.inr rfl

theorem callReplicateApi_sent_configured (t : String) (ht : t ≠ "") (remote : Remote)
    (prompt : String) : (callReplicateApi (some t) remote prompt).2 = [replicateCall prompt] := by
  unfold callReplicateApi
  simp only [ht, if_false]
  split
  · rfl
  · split <;> rfl
  · rfl

theorem processText_sent (token : Option String) (remote : Remote)
    (parse : String → Except String Val) (body : Obj) (text : Val) (shown : String)
    (hget : Obj.get "text" body = some text) (htr : text.truthy = true)
    (hshown : text.toStr = some shown) :
    (processText token remote parse body).2 =
      (callReplicateApi token remote (extractionInstruction ++ shown)).2 := by
  unfold processText
  rw [hget]
  simp only [htr, Bool.not_true, Bool.false_eq_true, if_false, hshown]
  generalize callReplicateApi token remote (extractionInstruction ++ shown) = res
  obtain ⟨r, sent⟩ := res
  cases r with
  | error e => rfl
  | ok o =>
    cases o with
    | none => rfl
    | some v =>
      cases v with
      | str s => simp only; split <;> rfl
      | _ => rfl

theorem generateEmail_sent (token : Option String) (remote : Remote) (body : Obj) (card : Val)
    (prompt : String) (hget : Obj.get "card" body = some card) (htr : card.truthy = true)
    (hprompt : emailPrompt card = some prompt) :
    (generateEmail token remote body).2 = (callReplicateApi token remote prompt).2 := by
  unfold generateEmail
  rw [hget]
  simp only [htr, Bool.not_true, Bool.false_eq_true, if_false, hprompt]
  generalize callReplicateApi token remote prompt = res
  obtain ⟨r, sent⟩ := res
  cases r with
  | error e => rfl
  | ok o => cases o <;> rfl

theorem processText_sent_cases (token : Option String) (remote : Remote)
    (parse : String → Except String Val) (body : Obj) :
    (processText token remote parse body).2 = [] ∨
      ∃ prompt, (processText token remote parse body).2 = [replicateCall prompt] := by
  cases hget : Obj.get "text" body with
  | none => left; simp [processText, hget]
  | some text =>
    cases htr : text.truthy with
    | false => left; simp [processText, hget, htr]
    | true =>
      cases hshown : text.toStr with
      | none => left; simp [processText, hget, htr, hshown]
      | some shown =>
        rw [processText_sent token remote parse body text shown hget htr hshown]
        rcases callReplicateApi_sent token remote (extractionInstruction ++ shown) with h | h
        · exact Or.inl h
        · exact Or.inr ⟨_, h⟩

theorem generateEmail_sent_cases (token : Option String) (remote : Remote) (body : Obj) :
    (generateEmail token remote body).2 = [] ∨
      ∃ prompt, (generateEmail token remote body).2 = [replicateCall prompt] := by
  cases hget : Obj.get "card" body with
  | none => left; simp [generateEmail, hget]
  | some card =>
    cases htr : card.truthy with
    | false => left; simp [generateEmail, hget, htr]
    | true =>
      cases hprompt : emailPrompt card with
      | none => left; simp [generateEmail, hget, htr, hprompt]
      | some prompt =>
        rw [generateEmail_sent token remote body card prompt hget htr hprompt]
        rcases callReplicateApi_sent token remote prompt with h | h
        · exact Or.inl h
        · exact Or.inr ⟨_, h⟩

/-- C9, as the code has it.  Every input sent to the remote model carries
`max_new_tokens: 256`, by the extraction endpoint and by the email-draft
endpoint alike.  With a credential configured each endpoint sends exactly one
such input, for the prompt built from its non-empty `text`, respectively its
`card`, when the template literal of the prompt does not throw; when it
throws, nothing is sent. -/
theorem sent_input_max_new_tokens (token : Option String) (remote : Remote)
    (parse : String → Except String Val) (body : Obj) :
    (∀ call ∈ (processText token remote parse body).2,
      Obj.get "max_new_tokens" call.input = some (.num ⟨256, by decide⟩)) ∧
    (∀ call ∈ (generateEmail token remote body).2,
      Obj.get "max_new_tokens" call.input = some (.num ⟨256, by decide⟩)) ∧
    (∀ (t : String) (text : Val) (shown : String), token = some t → t ≠ "" →
      Obj.get "text" body = some text → text.truthy = true → text.toStr = some shown →
      (processText token remote parse body).2 =
        [replicateCall (extractionInstruction ++ shown)]) ∧
    (∀ (t : String) (card : Val) (prompt : String), token = some t → t ≠ "" →
      Obj.get "card" body = some card → card.truthy = true → emailPrompt card = some prompt →
      (generateEmail token remote body).2 = [replicateCall prompt]) ∧
    (∀ text : Val, Obj.get "text" body = some text → text.toStr = none →
      (processText token remote parse body).2 = []) ∧
    (∀ card : Val, Obj.get "card" body = some card → emailPrompt card = none →
      (generateEmail token remote body).2 = []) := by
  refine ⟨?_, ?_, ?_, ?_, ?_, ?_⟩
  · intro call hc
    rcases processText_sent_cases token remote parse body with h | ⟨p, h⟩
    · rw [h] at hc; cases hc
    · rw [h, List.mem_singleton] at hc
      subst hc
      rfl
  · intro call hc
    rcases generateEmail_sent_cases token remote body with h | ⟨p, h⟩
    · rw [h] at hc; cases hc
    · rw [h, List.mem_singleton] at hc
      subst hc
      rfl
  · intro t text shown ht hne hget htr hshown
    subst ht
    rw [processText_sent _ remote parse body text shown hget htr hshown,
      callReplicateApi_sent_configured t hne]
  · intro t card prompt ht hne hget htr hprompt
    subst ht
    rw [generateEmail_sent _ remote body card prompt hget htr hprompt,
      callReplicateApi_sent_configured t hne]
  · intro text hget hnone
    unfold processText
    rw [hget]
    simp only [hnone]
    split <;> rfl
  · intro card hget hnone
    unfold generateEmail
    rw [hget]
    simp only [hnone]
    split <;> rfl

/-- C9 at an email-draft request with a credential configured. -/
theorem sent_input_max_new_tokens_witness :
    "r8_token" ≠ "" ∧
      Obj.get "card" [("card", .obj [("nama", .str "Ani")])] =
        some (.obj [("nama", .str "Ani")]) ∧
      (Val.obj [("nama", .str "Ani")]).truthy = true ∧
      emailPrompt (.obj [("nama", .str "Ani")]) =
        some (emailPromptText "Ani" "seorang profesional" "undefined") ∧
      (generateEmail (some "r8_token") (fun _ => .returns (some (.str "Halo")))
          [("card", .obj [("nama", .str "Ani")])]).2 =
        [replicateCall (emailPromptText "Ani" "seorang profesional" "undefined")] :=
  ⟨by decide, rfl, rfl, rfl,
    (sent_input_max_new_tokens (some "r8_token") (fun _ => .returns (some (.str "Halo")))
      (fun _ => .error "Unexpected token") [("card", .obj [("nama", .str "Ani")])]).2.2.2.1
      "r8_token" (.obj [("nama", .str "Ani")]) _ rfl (by decide) rfl rfl rfl⟩

/-- C9 as stated fails: the input the email-draft endpoint sends carries the
explicit cap `max_new_tokens: 256`. -/
theorem generateEmail_sends_token_cap :
    (generateEmail (some "r8_token") (fun _ => .returns (some (.str "Halo")))
        [("card", .obj [("nama", .str "Ani")])]).2.map
          (fun call => Obj.get "max_new_tokens" call.input) =
        [some (.num ⟨256, by decide⟩)] ∧
      (generateEmail (some "r8_token") (fun _ => .returns (some (.str "Halo")))
        [("card", .obj [("nama", .str "Ani")])]).1 = ⟨200, some (.obj [("email", .str "Halo")])⟩ := by
  decide

/-- C10. For a request whose `text` is non-empty, whenever the text the model
returned does not parse as JSON after the clean-up, `POST /api/process-text`
answers with status 500 and a body `{ error: message }`; the handler is a
total function, so there is a response in every case. -/
theorem processText_malformed_output (token : Option String) (remote : Remote)
    (parse : String → Except String Val) (body : Obj) (text : Val)
    (hget : Obj.get "text" body = some text) (htr : text.truthy = true)
    (hbad : ∀ shown s, text.toStr = some shown →
      (callReplicateApi token remote (extractionInstruction ++ shown)).1 =
        .ok (some (.str s)) → ∃ message, parse (cleanJsonString s) = .error message) :
    (processText token remote parse body).1.status = 500 ∧
      ∃ message, (processText token remote parse body).1.body = errorBody message := by
  unfold processText
  rw [hget]
  simp only [htr, Bool.not_true, Bool.false_eq_true, if_false]
  cases hshown : text.toStr with
  | none => exact ⟨rfl, _, rfl⟩
  | some shown =>
    simp only
    have hbad2 := hbad shown
    generalize callReplicateApi token remote (extractionInstruction ++ shown) = res at hbad2 ⊢
    obtain ⟨r, sent⟩ := res
    cases r with
    | error e => exact ⟨rfl, _, rfl⟩
    | ok o =>
      cases o with
      | none => exact ⟨rfl, _, rfl⟩
      | some v =>
        cases v with
        | str s =>
          obtain ⟨message, hm⟩ := hbad2 s hshown rfl
          simp only [hm]
          exact ⟨trivial, _, rfl⟩
        | _ => exact ⟨rfl, _, rfl⟩

/-- C10 at a model output that is prose and a parser that rejects it. -/
theorem processText_malformed_output_witness :
    Obj.get "text" [("text", .str "Ani, CTO Maju")] = some (.str "Ani, CTO Maju") ∧
      (Val.str "Ani, CTO Maju").truthy = true ∧
      (processText (some "r8_token") (fun _ => .returns (some (.str "Maaf, saya tidak tahu.")))
          (fun s => if s = "{}" then .ok (.obj []) else .error "Unexpected token")
          [("text", .str "Ani, CTO Maju")]).1.status = 500 :=
  ⟨rfl, by decide,
    (processText_malformed_output (some "r8_token")
      (fun _ => .returns (some (.str "Maaf, saya tidak tahu.")))
      (fun s => if s = "{}" then .ok (.obj []) else .error "Unexpected token")
      [("text", .str "Ani, CTO Maju")] (.str "Ani, CTO Maju") rfl (by decide)
      (by
        intro shown s _ hs
        have hs2 : s = "Maaf, saya tidak tahu." := by
          simp [callReplicateApi] at hs
          exact hs.symm
        subst hs2
        exact ⟨"Unexpected token", by decide⟩)).1⟩


/-! ## The identifiers of the collection stay distinct

The theorem on removal takes a collection whose records have distinct
identifiers.  Every handler keeps that property, so it holds of every state
reached from the empty collection. -/

theorem setFirst_ids (id : Val) (upd : Obj) (coll : Collection) :
    (setFirst id upd coll).map (fun d => d._id) = coll.map (fun d => d._id) := by
  induction coll with
  | nil => rfl
  | cons c r ih =>
    unfold setFirst
    split
    · simp [applySet]
    · simp only [List.map_cons, ih]

theorem postCards_created_or_same (accepts : Obj → Bool) (coll : Collection)
    (now fresh : String) (body : Obj) :
    (postCards accepts coll now fresh body).1.status = 201 ∨
      (postCards accepts coll now fresh body).2 = coll := by
  unfold postCards
  cases Obj.get "nama" body with
  | none => exact Or.inr rfl
  | some nama =>
    cases Obj.get "perusahaan" body with
    | none => exact Or.inr rfl
    | some perusahaan =>
      simp only
      split
      · exact Or.inr rfl
      · generalize insertOne accepts coll _ fresh = res
        match res with
        | .error _ => exact Or.inr rfl
        | .ok (_, _, _) => exact Or.inl rfl

theorem postCards_ids_nodup (accepts : Obj → Bool) (coll : Collection) (now fresh : String)
    (body : Obj) (hids : (coll.map (fun d => d._id)).Nodup) :
    ((postCards accepts coll now fresh body).2.map (fun d => d._id)).Nodup := by
  rcases postCards_created_or_same accepts coll now fresh body with hs | hsame
  · obtain ⟨c, hc, _, hfresh, _⟩ := postCards_created hs
    rw [hc, List.map_append, List.map_singleton]
    refine List.Nodup.append hids (List.nodup_singleton _) ?_
    intro x hx hx2
    rw [List.mem_singleton] at hx2
    subst hx2
    obtain ⟨d, hd, e⟩ := List.mem_map.mp hx
    exact hfresh d hd e
  · rw [hsame]
    exact hids

theorem updateOne_cases {accepts : Obj → Bool} {coll coll1 : Collection} {o : Val}
    {upd : Obj} {n : Nat} (h : updateOne accepts coll o upd = .ok (n, coll1)) :
    coll1 = coll ∨ ∃ upd2, coll1 = setFirst o upd2 coll := by
  unfold updateOne at h
  split at h
  · cases h
  · split at h
    · split at h
      · cases h
        exact Or.inr ⟨_, rfl⟩
      · split at h
        · cases h
          exact Or.inr ⟨_, rfl⟩
        · cases h
    · cases h
      exact Or.inl rfl

theorem updateOne_ids {accepts : Obj → Bool} {coll coll1 : Collection} {o : Val} {upd : Obj}
    {n : Nat} (h : updateOne accepts coll o upd = .ok (n, coll1)) :
    coll1.map (fun d => d._id) = coll.map (fun d => d._id) := by
  rcases updateOne_cases h with e | ⟨upd2, e⟩
  · rw [e]
  · rw [e]
    exact setFirst_ids _ _ _

theorem putCard_cases (accepts : Obj → Bool) (coll : Collection) (id : String) (body : Obj) :
    (putCard accepts coll id body).2 = coll ∨
      ∃ o upd2, (putCard accepts coll id body).2 = setFirst o upd2 coll := by
  unfold putCard
  cases parseObjectId id with
  | none => exact Or.inl rfl
  | some o =>
    simp only
    generalize hres : updateOne accepts coll o (Obj.erase "_id" body) = res
    match res, hres with
    | .error _, _ => exact Or.inl rfl
    | .ok (n, coll1), hres =>
      simp only
      rcases updateOne_cases hres with e | ⟨upd2, e⟩
      · split <;> exact Or.inl e
      · split <;> exact Or.inr ⟨o, upd2, e⟩

theorem putCard_ids (accepts : Obj → Bool) (coll : Collection) (id : String) (body : Obj) :
    (putCard accepts coll id body).2.map (fun d => d._id) = coll.map (fun d => d._id) := by
  unfold putCard
  cases parseObjectId id with
  | none => rfl
  | some o =>
    simp only
    generalize hres : updateOne accepts coll o (Obj.erase "_id" body) = res
    match res, hres with
    | .error _, _ => rfl
    | .ok (n, coll1), hres =>
      simp only
      split <;> exact updateOne_ids hres

theorem deleteCard_ids_nodup (coll : Collection) (id : String)
    (hids : (coll.map (fun d => d._id)).Nodup) :
    ((deleteCard coll id).2.map (fun d => d._id)).Nodup := by
  have hsub : List.Sublist (deleteCard coll id).2 coll := by
    unfold deleteCard
    cases parseObjectId id with
    | none => exact List.Sublist.refl _
    | some o =>
      simp only [deleteOne]
      split
      · simp only
        exact List.eraseP_sublist _
      · exact List.Sublist.refl _
  exact hids.sublist (hsub.map _)

/-! ## The field names of a record stay distinct

The theorem on the listing takes a record whose field names are distinct, as
the property names of an object are.  Every handler keeps that property of the
records of the collection. -/

theorem setFirst_names (id : Val) (upd : Obj) {coll : Collection}
    (h : ∀ c ∈ coll, (c.fields.map Prod.fst).Nodup) :
    ∀ c ∈ setFirst id upd coll, (c.fields.map Prod.fst).Nodup := by
  induction coll with
  | nil => intro c hc; cases hc
  | cons x r ih =>
    have hx := h x (List.mem_cons_self x r)
    have hr : ∀ c ∈ r, (c.fields.map Prod.fst).Nodup :=
      fun c hc => h c (List.mem_cons_of_mem x hc)
    unfold setFirst
    split
    · intro c hc
      rcases List.mem_cons.mp hc with e | e
      · rw [e]
        exact names_spread_nodup upd hx
      · exact hr c e
    · intro c hc
      rcases List.mem_cons.mp hc with e | e
      · rw [e]
        exact hx
      · exact ih hr c e

theorem postCards_names_nodup (accepts : Obj → Bool) (coll : Collection) (now fresh : String)
    (body : Obj) (h : ∀ c ∈ coll, (c.fields.map Prod.fst).Nodup) :
    ∀ c ∈ (postCards accepts coll now fresh body).2, (c.fields.map Prod.fst).Nodup := by
  rcases postCards_created_or_same accepts coll now fresh body with hs | hsame
  · obtain ⟨c1, hc1, _, _, hn⟩ := postCards_created hs
    rw [hc1]
    intro c hc
    rcases List.mem_append.mp hc with e | e
    · exact h c e
    · rw [List.mem_singleton] at e
      rw [e]
      exact hn
  · rw [hsame]
    exact h

theorem putCard_names_nodup (accepts : Obj → Bool) (coll : Collection) (id : String)
    (body : Obj) (h : ∀ c ∈ coll, (c.fields.map Prod.fst).Nodup) :
    ∀ c ∈ (putCard accepts coll id body).2, (c.fields.map Prod.fst).Nodup := by
  rcases putCard_cases accepts coll id body with e | ⟨o, upd2, e⟩
  · rw [e]
    exact h
  · rw [e]
    exact setFirst_names o upd2 h

theorem deleteCard_sublist (coll : Collection) (id : String) :
    List.Sublist (deleteCard coll id).2 coll := by
  unfold deleteCard
  cases parseObjectId id with
  | none => exact List.Sublist.refl _
  | some o =>
    simp only [deleteOne]
    split
    · simp only
      exact List.eraseP_sublist _
    · exact List.Sublist.refl _

theorem deleteCard_names_nodup (coll : Collection) (id : String)
    (h : ∀ c ∈ coll, (c.fields.map Prod.fst).Nodup) :
    ∀ c ∈ (deleteCard coll id).2, (c.fields.map Prod.fst).Nodup :=
  fun c hc => h c ((deleteCard_sublist coll id).subset hc)

/-! ## What creation and update do when the body carries no `id`

The two theorems below state the behaviour of `POST /api/cards` and of
`PUT /api/cards/:id` that the evaluations above depart from. -/

theorem get_erase_self (k : String) (o : Obj) : Obj.get k (Obj.erase k o) = none := by
  induction o with
  | nil => rfl
  | cons p r ih =>
    obtain ⟨k1, v1⟩ := p
    unfold Obj.erase Obj.get at *
    by_cases h1 : k1 = k
    · subst h1
      simpa using ih
    · have hb : (k1 != k) = true := by simpa using h1
      have hne : (k == k1) = false := by simpa using fun e => h1 e.symm
      simp only [List.filter_cons, hb, if_true, List.lookup, hne]
      exact ih

theorem erase_of_get_none {k : String} {o : Obj} (h : Obj.get k o = none) :
    Obj.erase k o = o := by
  unfold Obj.erase
  rw [List.filter_eq_self]
  intro p hp
  obtain ⟨k1, v1⟩ := p
  by_contra hcon
  have hk1 : k1 = k := by simpa using hcon
  subst hk1
  have := List.lookup_eq_none_iff.mp h (_, v1) hp
  simp at this

theorem get_spread_of_get_none {k : String} (base src : Obj) (h : Obj.get k src = none) :
    Obj.get k (Obj.spread base src) = Obj.get k base := by
  induction src generalizing base with
  | nil => rfl
  | cons p r ih =>
    obtain ⟨k1, v1⟩ := p
    have hk : (k == k1) = false := by
      cases hb : k == k1
      · rfl
      · simp [Obj.get, List.lookup, hb] at h
    have hr : Obj.get k r = none := by
      simpa [Obj.get, List.lookup, hk] using h
    have hne : k ≠ k1 := by simpa using hk
    show Obj.get k (Obj.spread (Obj.set k1 v1 base) r) = Obj.get k base
    rw [ih _ hr, get_set_of_ne hne]

/-- A successful creation whose body carries neither `id` nor `_id` answers
with the identifier the driver generated, the inserted record is stored under
it, and no record already in the collection has it. -/
theorem postCards_assigns_fresh_id (accepts : Obj → Bool) (coll : Collection)
    (now fresh : String) (body : Obj)
    (hid : Obj.get "id" body = none) (hid2 : Obj.get "_id" body = none)
    (hs : (postCards accepts coll now fresh body).1.status = 201) :
    (postCards accepts coll now fresh body).1.field "id" = some (.oid fresh) ∧
      (postCards accepts coll now fresh body).2 =
        coll ++ [⟨.oid fresh, Obj.set "tanggalDibuat" (.str now)
          (Obj.spread [("nama", (Obj.get "nama" body).getD .null),
            ("perusahaan", (Obj.get "perusahaan" body).getD .null)]
            (Obj.erase "perusahaan" (Obj.erase "nama" body)))⟩] ∧
      ∀ d ∈ coll, d._id ≠ .oid fresh := by
  unfold postCards at hs ⊢
  cases hn : Obj.get "nama" body with
  | none => simp [hn] at hs
  | some nama =>
    cases hp : Obj.get "perusahaan" body with
    | none => simp [hn, hp] at hs
    | some perusahaan =>
      simp only [hn, hp] at hs ⊢
      split at hs
      · simp at hs
      · rename_i htr
        simp only [htr, if_false, Option.getD_some] at hs ⊢
        have hrest : ∀ k, k ≠ "nama" → k ≠ "perusahaan" → Obj.get k body = none →
            Obj.get k (Obj.set "tanggalDibuat" (.str now)
              (Obj.spread [("nama", nama), ("perusahaan", perusahaan)]
                (Obj.erase "perusahaan" (Obj.erase "nama" body)))) =
              if k = "tanggalDibuat" then some (.str now) else none := by
          intro k h1 h2 hk
          by_cases ht : k = "tanggalDibuat"
          · subst ht
            simp [get_set_self]
          · rw [get_set_of_ne ht, get_spread_of_get_none, if_neg ht]
            · have e1 : (k == "nama") = false := by simpa using h1
              have e2 : (k == "perusahaan") = false := by simpa using h2
              simp [Obj.get, List.lookup, e1, e2]
            · rw [get_erase_of_ne h2, get_erase_of_ne h1, hk]
        have h_id := hrest "_id" (by decide) (by decide) hid2
        have h_id1 := hrest "id" (by decide) (by decide) hid
        simp only [show ("_id" = "tanggalDibuat") = False by decide,
          show ("id" = "tanggalDibuat") = False by decide, if_false] at h_id h_id1
        generalize hins : insertOne accepts coll _ fresh = res at hs ⊢
        match res, hins with
        | .error _, _ => simp at hs
        | .ok (id, stored, coll1), hins =>
          obtain ⟨e1, e2, e3, e4⟩ := insertOne_ok hins
          have hdoc : id = .oid fresh := by
            rw [e1]
            unfold docId
            rw [h_id]
          subst hdoc
          refine ⟨?_, ?_, e4⟩
          · show Obj.get "id" (Obj.spread [("id", Val.oid fresh)] stored) = some (.oid fresh)
            rw [get_spread_of_get_none]
            · rfl
            · rw [e2]
              unfold withId
              rw [h_id]
              simp only
              rw [get_set_of_ne (by decide), h_id1]
          · simp only [Bool.false_eq_true, if_false]
            rw [e3, erase_of_get_none h_id]

theorem mem_setFirst {coll : Collection} {c : Card} (upd : Obj)
    (hids : (coll.map (fun d => d._id)).Nodup) (hc : c ∈ coll) (d : Card) :
    d ∈ setFirst c._id upd coll ↔ d = applySet upd c ∨ (d ∈ coll ∧ d ≠ c) := by
  induction coll with
  | nil => cases hc
  | cons x r ih =>
    rw [List.map_cons, List.nodup_cons] at hids
    unfold setFirst
    by_cases hx : x = c
    · subst hx
      have hnot : ∀ d ∈ r, d ≠ x := by
        intro d hd e
        subst e
        exact hids.1 (List.mem_map_of_mem (fun d => d._id) hd)
      simp only [if_true, List.mem_cons]
      constructor
      · rintro (h | h)
        · exact Or.inl h
        · exact Or.inr ⟨Or.inr h, hnot d h⟩
      · rintro (h | ⟨h | h, hne⟩)
        · exact Or.inl h
        · exact absurd h hne
        · exact Or.inr h
    · have hcr : c ∈ r := by
        rcases List.mem_cons.mp hc with e | e
        · exact absurd e.symm hx
        · exact e
      have hid : x._id ≠ c._id := by
        intro e
        apply hids.1
        rw [e]
        exact List.mem_map_of_mem (fun d => d._id) hcr
      simp only [hid, if_false, List.mem_cons, ih hids.2 hcr]
      constructor
      · rintro (h | h | ⟨h, hne⟩)
        · exact Or.inr ⟨Or.inl h, h ▸ hx⟩
        · exact Or.inl h
        · exact Or.inr ⟨Or.inr h, hne⟩
      · rintro (h | ⟨h | h, hne⟩)
        · exact Or.inr (Or.inl h)
        · exact Or.inl h
        · exact Or.inr (Or.inr ⟨h, hne⟩)

/-- A successful update merges: in a collection whose records have distinct
identifiers, when the path identifier matches the record `c`, the field names
of the body are plain and the driver and the store take the update, the
response is 200, the collection afterwards holds `c` with the fields of the body (less
`_id`) assigned and every other record as it was; the stored `_id` of `c` and
every field the body does not name are unchanged; and the `id` of the response
is the path identifier when the body carries no `id`. -/
theorem putCard_merges (accepts : Obj → Bool) (coll : Collection) (id : String) (body : Obj)
    (c : Card) (hids : (coll.map (fun d => d._id)).Nodup) (hc : c ∈ coll)
    (hm : matchesId id c) (hacc : accepts (Obj.erase "_id" body) = true)
    (_hplain : ∀ p ∈ Obj.erase "_id" body, plainName p.1 = true) :
    putCard accepts coll id body =
        (⟨200, some (.obj (Obj.spread [("id", .str id)] (Obj.erase "_id" body)))⟩,
          setFirst c._id (Obj.erase "_id" body) coll) ∧
      (∀ d, d ∈ (putCard accepts coll id body).2 ↔
        d = applySet (Obj.erase "_id" body) c ∨ (d ∈ coll ∧ d ≠ c)) ∧
      (applySet (Obj.erase "_id" body) c)._id = c._id ∧
      (∀ k, Obj.get k (Obj.erase "_id" body) = none →
        Obj.get k (applySet (Obj.erase "_id" body) c).fields = Obj.get k c.fields) ∧
      (Obj.get "id" body = none →
        (putCard accepts coll id body).1.field "id" = some (.str id)) := by
  unfold matchesId at hm
  have hput : putCard accepts coll id body =
      (⟨200, some (.obj (Obj.spread [("id", .str id)] (Obj.erase "_id" body)))⟩,
        setFirst c._id (Obj.erase "_id" body) coll) := by
    unfold putCard updateOne
    rw [hm]
    simp [any_id_eq_true hc rfl, get_erase_self, hacc]
  refine ⟨hput, ?_, rfl, ?_, ?_⟩
  · rw [hput]
    exact mem_setFirst _ hids hc
  · intro k hk
    exact get_spread_of_get_none _ _ hk
  · intro hid
    rw [hput]
    show Obj.get "id" (Obj.spread [("id", Val.str id)] (Obj.erase "_id" body)) = some (.str id)
    rw [get_spread_of_get_none]
    · rfl
    · rw [get_erase_of_ne (by decide), hid]

end DigiCard
